import Mathlib

/-!
# A shallow embedding of the GrantMate question-answering pipeline

This file embeds the core of the repository (`src/main.py`, `src/qa_system.py`)
in Lean 4 and proves properties of the embedded code.

Python strings are modelled as `List Char`; character classes and case
mappings are modelled on the ASCII range (all markers, stop words and fixed
strings in the repository are ASCII).  Machine floats that only ever hold
small decimal constants (priorities, boost factors, fit scores) are modelled
as `ℚ`; every constant involved (`4.0`, `1.5`, `0.1`, …) is exactly
representable in binary floating point and no rounding occurs in the
operations performed on them, so the rational model is exact.  External
collaborators (the Gemini embedding/generation backends and the standard
library JSON parser) are modelled as parameters, exactly as the spec treats
them: capability-style interfaces whose every behaviour is quantified over.
Python exceptions are modelled with `Except`, with `try`/`except` blocks
translated to explicit handlers; exception *messages* are representative
strings (the code only inspects messages for the substrings `429`, `quota`
and `rate limit`, which none of the representative messages contain).
-/

set_option maxRecDepth 10000

namespace GrantMate

/-- Python strings, modelled as lists of characters. -/
abbrev PyStr := List Char

/-- The characters Python `str.strip()` removes and `\s` matches (ASCII range):
space, tab, newline, carriage return, vertical tab, form feed. -/
def pyIsWs (c : Char) : Bool :=
  c = ' ' || c = '\t' || c = '\n' || c = '\r' || c = Char.ofNat 11 || c = Char.ofNat 12

/-- ASCII decimal digit test (regex `\d`): code points 48-57 (`0`-`9`). -/
def pyIsDigit (c : Char) : Bool := decide (48 ≤ c.toNat) && decide (c.toNat ≤ 57)

/-- ASCII lower-case letter test (Python `str.islower` on the ASCII range):
code points 97-122 (`a`-`z`). -/
def pyIsAsciiLower (c : Char) : Bool := decide (97 ≤ c.toNat) && decide (c.toNat ≤ 122)

/-- ASCII upper-case letter test (Python `str.isupper` on the ASCII range):
code points 65-90 (`A`-`Z`). -/
def pyIsAsciiUpper (c : Char) : Bool := decide (65 ≤ c.toNat) && decide (c.toNat ≤ 90)

/-- ASCII letter test. -/
def pyIsAlpha (c : Char) : Bool := pyIsAsciiLower c || pyIsAsciiUpper c

/-- ASCII letter-or-digit test. -/
def pyIsAlnum (c : Char) : Bool := pyIsAlpha c || pyIsDigit c

/-- Regex `\w` on the ASCII range: letter, digit or underscore. -/
def pyIsWordChar (c : Char) : Bool := pyIsAlnum c || c = '_'

/-- Lower-case an ASCII letter (Python `str.lower`, ASCII range). -/
def pyLowerChar (c : Char) : Char :=
  if pyIsAsciiUpper c then Char.ofNat (c.toNat + 32) else c

/-- Upper-case an ASCII letter (Python `str.upper`, ASCII range). -/
def pyUpperChar (c : Char) : Char :=
  if pyIsAsciiLower c then Char.ofNat (c.toNat - 32) else c

/-- Python `str.lower()` (ASCII model). -/
def pyLower (s : PyStr) : PyStr := s.map pyLowerChar

/-- Python `str.lstrip()`. -/
def lstripWs (s : PyStr) : PyStr := s.dropWhile pyIsWs

/-- Python `str.rstrip()`. -/
def rstripWs (s : PyStr) : PyStr := (lstripWs s.reverse).reverse

/-- Python `str.strip()`. -/
def pyStrip (s : PyStr) : PyStr := rstripWs (lstripWs s)

/-- Worker for `pySplitWs`; `acc` holds the current word reversed. -/
def splitWsAux : PyStr → PyStr → List PyStr
  | [], acc => if acc = [] then [] else [acc.reverse]
  | c :: rest, acc =>
    if pyIsWs c then
      (if acc = [] then [] else [acc.reverse]) ++ splitWsAux rest []
    else splitWsAux rest (c :: acc)

/-- Python `str.split()` with no argument: split on whitespace runs, no empty
pieces. -/
def pySplitWs (s : PyStr) : List PyStr := splitWsAux s []

/-- Worker for `pySplitNl`; `acc` holds the current line reversed. -/
def splitNlAux : PyStr → PyStr → List PyStr
  | [], acc => [acc.reverse]
  | c :: rest, acc =>
    if c = '\n' then acc.reverse :: splitNlAux rest []
    else splitNlAux rest (c :: acc)

/-- Python `str.split('\n')`. -/
def pySplitNl (s : PyStr) : List PyStr := splitNlAux s []

/-- Python substring test `sub in s`. -/
def pyContains (s sub : PyStr) : Bool :=
  match s with
  | [] => sub.isEmpty
  | c :: t => sub.isPrefixOf (c :: t) || pyContains t sub

/-- Worker for `pyFind`: leftmost index of `sub` in `s`, offset by `i`. -/
def pyFindAux (s sub : PyStr) (i : Nat) : Int :=
  match s with
  | [] => if sub.isEmpty then Int.ofNat i else -1
  | c :: t => if sub.isPrefixOf (c :: t) then Int.ofNat i else pyFindAux t sub (i + 1)

/-- Python `str.find(sub)`: leftmost index or `-1`. -/
def pyFind (s sub : PyStr) : Int := pyFindAux s sub 0

/-- Python `str.find(sub, start)`: leftmost index at or after `start`, or `-1`. -/
def pyFindFrom (s sub : PyStr) (start : Nat) : Int :=
  let r := pyFindAux (s.drop start) sub 0
  if r < 0 then -1 else r + Int.ofNat start

/-- Python slice `s[i:j]` for the non-negative indices used by the code. -/
def pySlice (s : PyStr) (i j : Int) : PyStr := (s.drop i.toNat).take (j - i).toNat

/-- Python slice `s[-n:]` for `n > 0`: the last `min n (length s)` characters. -/
def pyLastN (s : PyStr) (n : Nat) : PyStr := s.drop (s.length - n)

/-- Python `str.endswith(c)` for a single character. -/
def endsWithChar (s : PyStr) (c : Char) : Bool := s.getLast? = some c

/-- Python `str.startswith(c)` for a single character. -/
def startsWithChar (s : PyStr) (c : Char) : Bool := s.head? = some c

/-- `' '.join`, `'\n'.join`, … on already-split pieces. -/
def pyJoin (sep : PyStr) : List PyStr → PyStr
  | [] => []
  | [x] => x
  | x :: y :: rest => x ++ sep ++ pyJoin sep (y :: rest)

/-- Code-point lexicographic `≤` on strings, as Python string comparison. -/
def pyStrLe : PyStr → PyStr → Bool
  | [], _ => true
  | _ :: _, [] => false
  | a :: s, b :: t => if a = b then pyStrLe s t else decide (a < b)

/-!
## Regex substitution engine

Each `re.sub` in the source uses a small concrete pattern.  Every pattern is
implemented directly, and the global (non-anchored) ones run under a shared
driver that reproduces the `re` scan: at each position try the pattern; on a
match emit the replacement and resume after the match, otherwise keep one
character and move on.  Every match consumes at least one character, so the
scan is driven by a character-count fuel that the drivers always satisfy.
-/

/-- One step of the `re.sub` scan. `step s` returns `some (k, out)` when the
pattern matches a prefix of `s` of length `k ≥ 1`, replaced by `out`. -/
def scanDriver (step : PyStr → Option (Nat × PyStr)) : Nat → PyStr → PyStr
  | 0, s => s
  | _, [] => []
  | fuel + 1, c :: t =>
    match step (c :: t) with
    | some (k, out) => out ++ scanDriver step fuel (List.drop k (c :: t))
    | none => c :: scanDriver step fuel t

/-- The backtick character. -/
def btick : Char := Char.ofNat 96

/-- Regex `\*\*([^*]+)\*\*` (markdown bold), replacement `\1`. -/
def matchBold : PyStr → Option (Nat × PyStr)
  | '*' :: '*' :: rest =>
    let grp := rest.takeWhile (fun c => c != '*')
    if grp = [] then none
    else
      match rest.drop grp.length with
      | '*' :: '*' :: _ => some (grp.length + 4, grp)
      | _ => none
  | _ => none

/-- Regex `\*([^*]+)\*` (markdown italic), replacement `\1`. -/
def matchItalic : PyStr → Option (Nat × PyStr)
  | '*' :: rest =>
    let grp := rest.takeWhile (fun c => c != '*')
    if grp = [] then none
    else
      match rest.drop grp.length with
      | '*' :: _ => some (grp.length + 2, grp)
      | _ => none
  | _ => none

/-- Regex `` `([^`]+)` `` (markdown inline code), replacement `\1`. -/
def matchCode (s : PyStr) : Option (Nat × PyStr) :=
  match s with
  | [] => none
  | c :: rest =>
    if c = btick then
      let grp := rest.takeWhile (fun d => d != btick)
      if grp = [] then none
      else
        match rest.drop grp.length with
        | d :: _ => if d = btick then some (grp.length + 2, grp) else none
        | [] => none
    else none

/-- Regex `#{1,6}\s+` (markdown headers), removed.  A run of more than six
hashes never matches (backtracking still faces a hash, not whitespace). -/
def matchHeader (s : PyStr) : Option (Nat × PyStr) :=
  let hs := s.takeWhile (fun c => c = '#')
  if hs = [] || decide (hs.length > 6) then none
  else
    let wsp := (s.drop hs.length).takeWhile pyIsWs
    if wsp = [] then none else some (hs.length + wsp.length, [])

/-- Regex `\s+`, replacement a single space. -/
def matchWsRun (s : PyStr) : Option (Nat × PyStr) :=
  let w := s.takeWhile pyIsWs
  if w = [] then none else some (w.length, [' '])

/-- Regex `[ \t]+`, replacement a single space. -/
def matchSpTabRun (s : PyStr) : Option (Nat × PyStr) :=
  let w := s.takeWhile (fun c => c = ' ' || c = '\t')
  if w = [] then none else some (w.length, [' '])

/-- Regex `\n{3,}`, replacement two newlines. -/
def matchNl3 (s : PyStr) : Option (Nat × PyStr) :=
  let w := s.takeWhile (fun c => c = '\n')
  if decide (3 ≤ w.length) then some (w.length, ['\n', '\n']) else none

/-- Regex `\r\n`, replacement `\n`. -/
def matchCrLf : PyStr → Option (Nat × PyStr)
  | '\r' :: '\n' :: _ => some (2, ['\n'])
  | _ => none

/-- Regex `\r`, replacement `\n`. -/
def matchCr : PyStr → Option (Nat × PyStr)
  | '\r' :: _ => some (1, ['\n'])
  | _ => none

/-- `re.sub(r'\*\*([^*]+)\*\*', r'\1', s)`. -/
def subBold (s : PyStr) : PyStr := scanDriver matchBold s.length s

/-- `re.sub(r'\*([^*]+)\*', r'\1', s)`. -/
def subItalic (s : PyStr) : PyStr := scanDriver matchItalic s.length s

/-- ``re.sub(r'`([^`]+)`', r'\1', s)``. -/
def subCode (s : PyStr) : PyStr := scanDriver matchCode s.length s

/-- `re.sub(r'#{1,6}\s+', '', s)`. -/
def subHeaders (s : PyStr) : PyStr := scanDriver matchHeader s.length s

/-- `re.sub(r'\s+', ' ', s)`. -/
def collapseWs (s : PyStr) : PyStr := scanDriver matchWsRun s.length s

/-- `re.sub(r'[ \t]+', ' ', s)`. -/
def collapseSpTab (s : PyStr) : PyStr := scanDriver matchSpTabRun s.length s

/-- `re.sub(r'\n{3,}', '\n\n', s)`. -/
def collapseNl3 (s : PyStr) : PyStr := scanDriver matchNl3 s.length s

/-- `re.sub(r'\r\n', '\n', s)`. -/
def replaceCrLf (s : PyStr) : PyStr := scanDriver matchCrLf s.length s

/-- `re.sub(r'\r', '\n', s)`. -/
def replaceCr (s : PyStr) : PyStr := scanDriver matchCr s.length s

/-!
## Question Parser (`src/main.py`: `parse_questions`, `clean_question`,
`is_valid_question`)
-/

/-- Drop a leading whitespace run (the `\s*` tail of the anchored prefixes). -/
def dropWsPre (s : PyStr) : PyStr := s.dropWhile pyIsWs

/-- `re.sub(r'^(Q:|Question:|q:|question:)\s*', '', line, flags=re.IGNORECASE)`.
With `IGNORECASE` the alternation amounts to a case-insensitive `question:` or
`q:` prefix; the two alternatives cannot match at the same position. -/
def stripQPrefixLine (s : PyStr) : PyStr :=
  if List.isPrefixOf ("question:".toList) (pyLower s) then dropWsPre (s.drop 9)
  else if List.isPrefixOf ("q:".toList) (pyLower s) then dropWsPre (s.drop 2)
  else s

/-- `re.sub(r'^\d+[\.\)]\s*', '', line)` (numbered list markers). -/
def stripNumbered (s : PyStr) : PyStr :=
  let ds := s.takeWhile pyIsDigit
  if ds = [] then s
  else
    match s.drop ds.length with
    | c :: rest => if c = '.' || c = ')' then dropWsPre rest else s
    | [] => s

/-- `re.sub(r'^[a-zA-Z][\.\)]\s*', '', line)` (lettered list markers). -/
def stripLettered (s : PyStr) : PyStr :=
  match s with
  | a :: c :: rest =>
    if pyIsAlpha a && (c = '.' || c = ')') then dropWsPre rest else s
  | _ => s

/-- `re.sub(r'^[-•*→▶▪▫]\s*', '', line)` (bullet markers). -/
def stripBullet (s : PyStr) : PyStr :=
  match s with
  | c :: rest =>
    if c = '-' || c = '•' || c = '*' || c = '→' || c = '▶' || c = '▪' || c = '▫' then
      dropWsPre rest
    else s
  | [] => []

/-- `re.sub(r'^[IVX]+[\.\)]\s*', '', line)` (Roman-numeral markers). -/
def stripRoman (s : PyStr) : PyStr :=
  let rs := s.takeWhile (fun c => c = 'I' || c = 'V' || c = 'X')
  if rs = [] then s
  else
    match s.drop rs.length with
    | c :: rest => if c = '.' || c = ')' then dropWsPre rest else s
    | [] => s

/-- `re.sub(r'^\([a-z0-9]+\)\s*', '', line, flags=re.IGNORECASE)`
(parenthesised markers such as `(a)`, `(1)`). -/
def stripParenMarker (s : PyStr) : PyStr :=
  match s with
  | '(' :: rest =>
    let inner := rest.takeWhile pyIsAlnum
    if inner = [] then s
    else
      match rest.drop inner.length with
      | ')' :: tail => dropWsPre tail
      | _ => s
  | _ => s

/-- `re.sub(r':\s*$', '', line)`: remove a final colon together with the
trailing whitespace after it; a line not ending (modulo whitespace) in a colon
is returned unchanged, trailing whitespace included. -/
def stripTrailingColon (s : PyStr) : PyStr :=
  let r := rstripWs s
  match r.getLast? with
  | some ':' => r.dropLast
  | _ => s

/-- The interrogative/modal word list of `main.py` (used both by the
`is_new_question` regex at line 145 and the final-cleanup check at line 213,
which spell out the same eighteen words). -/
def interrogatives : List PyStr :=
  ["what", "who", "when", "where", "why", "how", "which", "can", "could",
   "would", "should", "is", "are", "do", "does", "did", "will", "has",
   "have"].map String.toList

/-- `re.search(r'^(what|who|…)', line, re.IGNORECASE)`: the lower-cased line
starts with one of the interrogative words (no word boundary is required by
the pattern). -/
def startsWithInterrogative (s : PyStr) : Bool :=
  interrogatives.any (fun w => List.isPrefixOf w (pyLower s))

/-- The `is_new_question` test of `parse_questions` (lines 142-146): ends in
`?`, or is capitalised and at most 15 words, or starts with an
interrogative/modal word. -/
def looksLikeNewQuestion (line : PyStr) : Bool :=
  endsWithChar line '?' ||
  (line ≠ [] && (match line.head? with
                 | some c => pyIsAsciiUpper c
                 | none => false) && decide ((pySplitWs line).length ≤ 15)) ||
  startsWithInterrogative line

/-- `re.sub(r'^[:\-–—]\s+', '', text)`: a leading dash/colon character
followed by at least one whitespace character is removed together with the
whitespace run. -/
def stripLeadPunct (s : PyStr) : PyStr :=
  match s with
  | c :: t =>
    if c = ':' || c = '-' || c = '–' || c = '—' then
      let w := t.takeWhile pyIsWs
      if w = [] then s else t.drop w.length
    else s
  | [] => []

/-- `re.sub(r'\s+[:\-–—]$', '', text)`: a final dash/colon character preceded
by at least one whitespace character is removed together with the preceding
whitespace run. -/
def stripTrailPunct (s : PyStr) : PyStr :=
  match s.reverse with
  | c :: t =>
    if c = ':' || c = '-' || c = '–' || c = '—' then
      let w := t.takeWhile pyIsWs
      if w = [] then s else (t.drop w.length).reverse
    else s
  | [] => []

/-- Upper-case the first character when it is a lower-case letter
(`main.py` lines 242-243). -/
def capitalizeFirst (s : PyStr) : PyStr :=
  match s with
  | c :: t => if pyIsAsciiLower c then pyUpperChar c :: t else c :: t
  | [] => []

/-- `clean_question` (`main.py` lines 222-245): strip markdown, collapse
whitespace, strip stray leading/trailing punctuation, capitalise. -/
def clean_question (text : PyStr) : PyStr :=
  if text = [] then []
  else
    let t := subBold text
    let t := subItalic t
    let t := subCode t
    let t := subHeaders t
    let t := collapseWs t
    let t := pyStrip t
    let t := stripLeadPunct t
    let t := stripTrailPunct t
    capitalizeFirst t

/-- The exact-match formatting artifacts rejected by `is_valid_question`. -/
def artifactStrings : List PyStr :=
  ["question", "answer", "q:", "a:", "note:", "see:"].map String.toList

/-- `is_valid_question` (`main.py` lines 248-270).  The final check
`len(re.sub(r'[^\w\s]', '', text)) < len(text) * 0.5` compares an integer with
an exactly representable float, so it is the integer comparison
`2 * kept < len`. -/
def is_valid_question (text : PyStr) : Bool :=
  if text = [] || decide (text.length < 10) then false
  else if decide ((pySplitWs text).length < 3) && !endsWithChar text '?' then false
  else if decide (text.length < 10) then false
  else if artifactStrings.contains (pyLower text) then false
  else if decide (2 * (text.filter (fun c => pyIsWordChar c || pyIsWs c)).length
                    < text.length) then false
  else true

/-- One of `.`, `!`, `?` (sentence-terminal punctuation). -/
def isTermPunct (c : Char) : Bool := c = '.' || c = '!' || c = '?'

/-- `re.split(r'([.!?]+(?:\s+|$))', s)`: split on runs of sentence-terminal
punctuation followed by whitespace or end of string, *keeping* the matched
delimiters (the pattern has a capturing group), so the output alternates
text piece, delimiter, text piece, …  `acc` holds the current piece
reversed; the fuel is at least the length of the remaining input plus one. -/
def splitSentencesAux : Nat → PyStr → PyStr → List PyStr
  | 0, s, acc => [acc.reverse ++ s]
  | _, [], acc => [acc.reverse]
  | fuel + 1, c :: t, acc =>
    if isTermPunct c then
      let pr := (c :: t).takeWhile isTermPunct
      let restAfter := (c :: t).drop pr.length
      if restAfter = [] then [acc.reverse, pr, []]
      else
        let wsr := restAfter.takeWhile pyIsWs
        if wsr = [] then splitSentencesAux fuel t (c :: acc)
        else acc.reverse :: (pr ++ wsr) ::
             splitSentencesAux fuel (restAfter.drop wsr.length) []
    else splitSentencesAux fuel t (c :: acc)

/-- `re.split(r'([.!?]+(?:\s+|$))', s)`. -/
def splitSentences (s : PyStr) : List PyStr := splitSentencesAux (s.length + 1) s []

/-- `re.split(r'\n{2,}', s)`: split on runs of two or more newlines (no
capturing group, so the delimiters are dropped). -/
def splitBlankAux : Nat → PyStr → PyStr → List PyStr
  | 0, s, acc => [acc.reverse ++ s]
  | _, [], acc => [acc.reverse]
  | fuel + 1, c :: t, acc =>
    if c = '\n' then
      let run := (c :: t).takeWhile (fun d => d = '\n')
      if decide (2 ≤ run.length) then
        acc.reverse :: splitBlankAux fuel ((c :: t).drop run.length) []
      else splitBlankAux fuel t (c :: acc)
    else splitBlankAux fuel t (c :: acc)

/-- `re.split(r'\n{2,}', s)`. -/
def splitBlankLines (s : PyStr) : List PyStr := splitBlankAux (s.length + 1) s []

/-- The accumulator state of strategy 1 of `parse_questions`: collected
questions, the `seen` set (a list, insertion order kept) and the lines of the
question currently under construction. -/
structure ParseState where
  questions : List PyStr
  seen : List PyStr
  current : List PyStr

/-- The shared flush step of strategy 1 (`main.py` lines 114-121, 148-155,
161-166): join the accumulated lines, clean, and append when non-empty, valid
and not yet seen.  Mirroring the source exactly, the membership test checks
the *cleaned* text against `seen` while `seen` stores the *lower-cased
stripped* text (`seen.add(question.lower().strip())`). -/
def flushCurrent (st : ParseState) : ParseState :=
  if st.current = [] then st
  else
    let question := clean_question (pyStrip (pyJoin [' '] st.current))
    if question ≠ [] && !st.seen.contains question && is_valid_question question then
      { questions := st.questions ++ [question],
        seen := st.seen ++ [pyStrip (pyLower question)],
        current := [] }
    else { st with current := [] }

/-- Strategy 1, one line (`main.py` lines 109-158). -/
def processLine (st : ParseState) (rawLine : PyStr) : ParseState :=
  let line := pyStrip rawLine
  if line = [] then
    if st.current ≠ [] then flushCurrent st else st
  else
    let line := stripQPrefixLine line
    let line := stripNumbered line
    let line := stripLettered line
    let line := stripBullet line
    let line := stripRoman line
    let line := stripParenMarker line
    let line := stripTrailingColon line
    let line := pyStrip line
    if line = [] then st
    else if looksLikeNewQuestion line && st.current ≠ [] then
      let st' := flushCurrent st
      { st' with current := [line] }
    else { st with current := st.current ++ [line] }

/-- The shared conditional append of strategies 2 and 3 (`main.py` lines
172-175, 188-192): append an already-cleaned candidate when non-empty, unseen
and valid, recording its lower-cased stripped form in `seen`. -/
def addIfValid (qs seen : List PyStr) (cleaned : PyStr) : List PyStr × List PyStr :=
  if cleaned ≠ [] && !seen.contains cleaned && is_valid_question cleaned then
    (qs ++ [cleaned], seen ++ [pyStrip (pyLower cleaned)])
  else (qs, seen)

/-- Strategy 3 inner loop (`main.py` lines 181-193): accumulate stripped
pieces; flush when a piece ends in `?`, or ends in `.` with at least two
pieces accumulated. -/
def strat3Loop : List PyStr → List PyStr → List PyStr → List PyStr →
    List PyStr × List PyStr × List PyStr
  | [], qs, seen, cur => (qs, seen, cur)
  | piece :: rest, qs, seen, cur =>
    let s := pyStrip piece
    if s = [] then strat3Loop rest qs seen cur
    else
      let cur' := cur ++ [s]
      if endsWithChar s '?' || (endsWithChar s '.' && decide (2 ≤ cur'.length)) then
        strat3Loop rest
          (addIfValid qs seen (clean_question (pyStrip (pyJoin [' '] cur')))).1
          (addIfValid qs seen (clean_question (pyStrip (pyJoin [' '] cur')))).2 []
      else strat3Loop rest qs seen cur'

/-- Strategy 3 (`main.py` lines 178-198), including the final flush which
appends without updating `seen`. -/
def strat3 (normalized : PyStr) (qs seen : List PyStr) : List PyStr × List PyStr :=
  let r := strat3Loop (splitSentences normalized) qs seen []
  if r.2.2 ≠ [] then
    if clean_question (pyStrip (pyJoin [' '] r.2.2)) ≠ [] &&
       !r.2.1.contains (clean_question (pyStrip (pyJoin [' '] r.2.2))) &&
       is_valid_question (clean_question (pyStrip (pyJoin [' '] r.2.2))) then
      (r.1 ++ [clean_question (pyStrip (pyJoin [' '] r.2.2))], r.2.1)
    else (r.1, r.2.1)
  else (r.1, r.2.1)

/-- Whether a question (already at least 21 characters, lacking terminal
punctuation) contains an interrogative word as a *substring* of its
lower-cased text — `any(word in q.lower() for word in [...])`
(`main.py` line 213). -/
def containsInterrogativeWord (q : PyStr) : Bool :=
  interrogatives.any (fun w => pyContains (pyLower q) w)

/-- The final-cleanup pass of `parse_questions` (lines 207-217): re-clean each
surviving question, and append `?` or `.` to long questions lacking terminal
punctuation. -/
def finalizeQuestion (q0 : PyStr) : PyStr :=
  let q := clean_question q0
  if decide (20 < q.length) &&
     !(endsWithChar (rstripWs q) '.' || endsWithChar (rstripWs q) '!' ||
       endsWithChar (rstripWs q) '?') then
    if containsInterrogativeWord q then rstripWs q ++ ['?'] else rstripWs q ++ ['.']
  else q

/-- Strategy 1 in full (`main.py` lines 105-166): fold the line machine over
all lines and flush the trailing accumulator; returns the questions and the
`seen` set. -/
def strat1Result (normalized : PyStr) : List PyStr × List PyStr :=
  let st := flushCurrent ((pySplitNl normalized).foldl processLine ⟨[], [], []⟩)
  (st.questions, st.seen)

/-- Strategy 2 (`main.py` lines 169-175): when at most one question was found
and the input has a blank-line break, each blank-line-separated block is
cleaned and conditionally appended. -/
def strat2Result (normalized : PyStr) (p : List PyStr × List PyStr) :
    List PyStr × List PyStr :=
  if decide (p.1.length ≤ 1) && pyContains normalized ("\n\n".toList) then
    (splitBlankLines normalized).foldl
      (fun (r : List PyStr × List PyStr) seg =>
        addIfValid r.1 r.2 (clean_question (pyStrip seg))) p
  else p

/-- The final fallback (`main.py` lines 201-204): when no question survived,
the whole normalized input is cleaned and kept if valid. -/
def strat4Result (normalized : PyStr) (qs : List PyStr) : List PyStr :=
  if qs = [] then
    if clean_question normalized ≠ [] && is_valid_question (clean_question normalized) then
      [clean_question normalized]
    else []
  else qs

/-- The question list just before the final-cleanup pass: strategy 1 (line
accumulation), then strategy 2 (blank-line blocks, only when at most one
question was found and a blank line exists), then strategy 3 (sentence
splitting, only when no question was found), then the whole normalized input
as a single question (only when still none). -/
def parseStrategies (normalized : PyStr) : List PyStr :=
  let p1 := strat1Result normalized
  let p2 := strat2Result normalized p1
  let p3 := if p2.1 = [] then strat3 normalized p2.1 p2.2 else p2
  strat4Result normalized p3.1

/-- `parse_questions` (`main.py` lines 78-219). -/
def parse_questions (raw : PyStr) : List PyStr :=
  if raw = [] || pyStrip raw = [] then []
  else
    let normalized := collapseSpTab (collapseNl3 (replaceCr (replaceCrLf (pyStrip raw))))
    (parseStrategies normalized).map finalizeQuestion

/-!
## Document Loader & Chunker (`src/qa_system.py`: `KnowledgeBaseLoader`)
-/

/-- A loaded knowledge-base document (`qa_system.py` lines 60-65). -/
structure Document where
  path : PyStr
  content : PyStr
  filename : PyStr
  priority : ℚ
deriving DecidableEq, Repr

/-- A retrieval chunk (`qa_system.py` lines 91-98). -/
structure Chunk where
  path : PyStr
  filename : PyStr
  content : PyStr
  start_line : Nat
  end_line : Nat
  priority : ℚ
deriving DecidableEq, Repr

/-- `KnowledgeBaseLoader._get_folder_priority` (`qa_system.py` lines 29-43). -/
def get_folder_priority (path : PyStr) : ℚ :=
  let p := pyLower path
  if pyContains p ("quantitative".toList) then
    if pyContains p ("donations_summary".toList) then 2 else 4
  else if pyContains p ("qualitative".toList) then 3
  else if pyContains p ("grant_example".toList) then 2
  else if pyContains p ("contact".toList) then 1
  else 3 / 2

/-- The per-document chunking loop of `KnowledgeBaseLoader.get_chunks`
(`qa_system.py` lines 85-105): walk lines accumulating into `current`; when
adding a line would push `current` past `chunk_size` and `current` is
non-empty, emit it and seed the next buffer with the trailing `overlap`
characters (re-split into lines and re-joined — the identity on that slice)
plus a newline plus the overflowing line.  `max(0, i - len(overlap_lines))`
is truncated natural subtraction. -/
def chunkLoop (doc : Document) (chunk_size overlap : Nat) :
    List PyStr → Nat → PyStr → Nat → List Chunk × PyStr × Nat
  | [], _, current, cstart => ([], current, cstart)
  | line :: rest, i, current, cstart =>
    if decide (chunk_size < current.length + line.length) && current ≠ [] then
      let emitted : Chunk :=
        ⟨doc.path, doc.filename, current, cstart, i, doc.priority⟩
      let overlap_lines :=
        if 0 < overlap then pySplitNl (pyLastN current overlap) else []
      let seeded := pyJoin ['\n'] overlap_lines ++ '\n' :: line
      let r := chunkLoop doc chunk_size overlap rest (i + 1) seeded (i - overlap_lines.length)
      (emitted :: r.1, r.2)
    else
      chunkLoop doc chunk_size overlap rest (i + 1)
        (if current = [] then line else current ++ '\n' :: line) cstart

/-- The chunks of one document (`qa_system.py` lines 80-116), including the
final chunk emitted when the remaining buffer is non-blank. -/
def docChunks (doc : Document) (chunk_size overlap : Nat) : List Chunk :=
  let lines := pySplitNl doc.content
  let r := chunkLoop doc chunk_size overlap lines 0 [] 0
  if pyStrip r.2.1 ≠ [] then
    r.1 ++ [⟨doc.path, doc.filename, r.2.1, r.2.2, lines.length, doc.priority⟩]
  else r.1

/-- `KnowledgeBaseLoader.get_chunks` (`qa_system.py` lines 76-118); the
defaults in the source are `chunk_size = 1000`, `overlap = 200`. -/
def get_chunks (docs : List Document) (chunk_size overlap : Nat) : List Chunk :=
  docs.flatMap (fun d => docChunks d chunk_size overlap)

/-- The longest line of a document, used to bound chunk sizes. -/
def maxLineLen (doc : Document) : Nat :=
  ((pySplitNl doc.content).map List.length).foldr max 0

/-!
## Semantic Searcher (`src/qa_system.py`: `VectorSearcher`)

`VectorSearcher.search` embeds the query through the external backend and
computes one cosine similarity per chunk; the similarity values live in the
numeric backend (`numpy` over ℝ) and the ranking logic is independent of how
they were produced, so the embedding path is modelled as a function of the
per-chunk similarity list.  A query-embedding failure (the `except` at line
294) switches to `_keyword_fallback`, which is modelled in full.
-/

/-- Descending comparison on scored chunks, as
`similarities.sort(key=lambda x: x[0], reverse=True)` (Python's sort is
stable, as is `List.mergeSort`). -/
def scoreDesc (a b : ℚ × Chunk) : Bool := decide (b.1 ≤ a.1)

/-- The boosted score list of the embedding path (`qa_system.py` lines
299-304): each similarity times `(1 + priority * 0.1)`, paired with its
chunk. -/
def boostedScores (sims : List ℚ) (chunks : List Chunk) : List (ℚ × Chunk) :=
  (sims.zip chunks).map (fun p => (p.1 * (1 + p.2.priority * (1 / 10)), p.2))

/-- The scored results of the embedding path of `VectorSearcher.search`
(`qa_system.py` lines 306-315): sort descending, keep the first `top_k`,
keep only strictly positive scores. -/
def search_scored (sims : List ℚ) (chunks : List Chunk) (top_k : Nat) :
    List (ℚ × Chunk) :=
  (((boostedScores sims chunks).mergeSort scoreDesc).take top_k).filter
    (fun p => decide (0 < p.1))

/-- `VectorSearcher.search`, embedding path (`qa_system.py` lines 298-315):
the returned chunks of the scored results. -/
def VectorSearcher_search (sims : List ℚ) (chunks : List Chunk) (top_k : Nat) :
    List Chunk :=
  (search_scored sims chunks top_k).map Prod.snd

/-- The scored chunk list of `VectorSearcher._keyword_fallback`
(`qa_system.py` lines 319-331): the number of distinct lower-cased
whitespace-delimited tokens shared between query and chunk, times
`(1 + priority * 0.2)`, for chunks sharing at least one token. -/
def keyword_scored (query : PyStr) (chunks : List Chunk) : List (ℚ × Chunk) :=
  let query_words := (pySplitWs (pyLower query)).eraseDups
  chunks.filterMap (fun c =>
    let content_words := (pySplitWs (pyLower c.content)).eraseDups
    let word_overlap := (content_words.filter (fun w => query_words.contains w)).length
    if 0 < word_overlap then
      some ((word_overlap : ℚ) * (1 + c.priority * (1 / 5)), c)
    else none)

/-- The scored results of `VectorSearcher._keyword_fallback` after sorting
descending and truncation (`qa_system.py` lines 333-334). -/
def keyword_fallback_scored (query : PyStr) (chunks : List Chunk) (top_k : Nat) :
    List (ℚ × Chunk) :=
  ((keyword_scored query chunks).mergeSort scoreDesc).take top_k

/-- `VectorSearcher._keyword_fallback` (`qa_system.py` lines 317-334). -/
def VectorSearcher_keyword_fallback (query : PyStr) (chunks : List Chunk)
    (top_k : Nat) : List Chunk :=
  (keyword_fallback_scored query chunks top_k).map Prod.snd

/-!
## Embedding Index construction (`VectorSearcher._compute_embeddings`)

The Gemini batch-embedding call is external; its observable result shapes are
the ones the source distinguishes with `isinstance` checks: an exception, a
dict whose `'embedding'` value is a Python list (of vectors, or a flat list
of numbers, or empty), a dict whose `'embedding'` value is not a list, a
bare list, or anything else.  An element of a response list is either a
number or a vector; what matters to the index invariant is only *how many*
vectors each response contributes, so `np.array` on a single element is
modelled by its obvious vector image.
-/

/-- An element of a Gemini embedding response list. -/
inductive PyVal where
  | num (q : ℚ)
  | vec (v : List ℚ)
deriving DecidableEq, Repr

/-- The observable result of one *batch* `genai.embed_content` call. -/
inductive BatchResp where
  | raiseExc (msg : PyStr)
  | dictEmb (items : List PyVal)
  | dictEmbNonList
  | listResp (items : List PyVal)
  | otherResp
deriving Repr

/-- The observable result of one *individual* `genai.embed_content` call, as
used by the per-chunk fallback (`qa_system.py` lines 228-242, 249-262): an
exception, or the value the code turns into `np.array(embedding)`. -/
inductive IndResp where
  | raiseExc (msg : PyStr)
  | value (v : List ℚ)
deriving Repr

/-- `np.zeros(768)` (`qa_system.py` lines 242, 262). -/
def zeros768 : List ℚ := List.replicate 768 0

/-- One per-chunk fallback embedding: the returned vector, or a zero vector
when the individual call raises. -/
def indEmbed (embedOne : PyStr → IndResp) (content : PyStr) : List ℚ :=
  match embedOne content with
  | .raiseExc _ => zeros768
  | .value v => v

/-- `np.array` of one element of a batch response list (only its vector
image matters to the count invariant). -/
def pyValToVec : PyVal → List ℚ
  | .num q => [q]
  | .vec v => v

/-- `np.array` of a whole flat response list, appended as a single embedding
(`qa_system.py` lines 214-216). -/
def flatVec (items : List PyVal) : List ℚ :=
  items.map (fun v => match v with | .num q => q | .vec _ => 0)

/-- The embeddings appended for one batch of chunks (`qa_system.py` lines
194-262): the batch response is unpacked per its shape; an exception, an
empty or non-list `'embedding'` value, or an unexpected response type all
fall back to one individual call per chunk of the batch. -/
def batchContribution (embedOne : PyStr → IndResp) (batch : List Chunk) :
    BatchResp → List (List ℚ)
  | .dictEmb [] => batch.map (fun c => indEmbed embedOne c.content)
  | .dictEmb (PyVal.vec v :: rest) => (PyVal.vec v :: rest).map pyValToVec
  | .dictEmb (PyVal.num q :: rest) => [flatVec (PyVal.num q :: rest)]
  | .listResp items => items.map pyValToVec
  | .dictEmbNonList => batch.map (fun c => indEmbed embedOne c.content)
  | .otherResp => batch.map (fun c => indEmbed embedOne c.content)
  | .raiseExc _ => batch.map (fun c => indEmbed embedOne c.content)

/-- Fuel-driven worker for `batchesOf100`; the fuel is an upper bound on the
list length, so the middle case is never reached from `batchesOf100`. -/
def batchesAux : Nat → List Chunk → List (List Chunk)
  | _, [] => []
  | 0, l => [l]
  | n + 1, c :: t => ((c :: t).take 100) :: batchesAux n ((c :: t).drop 100)

/-- `range(0, total_chunks, 100)` batching (`qa_system.py` lines 186-191)
with the source's `batch_size = 100`. -/
def batchesOf100 (l : List Chunk) : List (List Chunk) := batchesAux l.length l

/-- The condition under which one batch response contributes exactly one
vector per chunk of its batch (the amendment of the index-count claim): the
call failed or was rejected — so the per-chunk fallback runs — or the
response carries exactly as many embeddings as the batch has chunks (one,
for the flat single-embedding shape). -/
def respWellCounted : BatchResp → Nat → Prop
  | .raiseExc _, _ => True
  | .dictEmbNonList, _ => True
  | .otherResp, _ => True
  | .dictEmb [], _ => True
  | .dictEmb (PyVal.vec v :: rest), n => (PyVal.vec v :: rest).length = n
  | .dictEmb (PyVal.num _ :: _), n => n = 1
  | .listResp items, n => items.length = n

/-- `VectorSearcher._compute_embeddings` (`qa_system.py` lines 174-268): on a
cache hit the cached vectors are used as-is (the loader performs no length
validation); otherwise each batch of 100 chunk contents goes to the backend
and its contribution is appended in order. -/
def compute_embeddings (cache : Option (List (List ℚ)))
    (batchCall : List PyStr → BatchResp) (embedOne : PyStr → IndResp)
    (chunks : List Chunk) : List (List ℚ) :=
  match cache with
  | some cached => cached
  | none =>
    (batchesOf100 chunks).flatMap
      (fun b => batchContribution embedOne b (batchCall (b.map Chunk.content)))

/-!
## Python values and dictionaries

`json.loads` yields a Python object: a string, number, boolean, `None`, list
or dict.  Dicts keep insertion order; assigning an existing key overwrites
its value in place, a new key is appended.  The membership operator `in`
means key lookup on a dict, element equality on a list, *substring* test on a
string, and raises `TypeError` on numbers, booleans and `None`.
-/

/-- A Python object as produced by `json.loads` and manipulated by the
answer-extraction code. -/
inductive JValue where
  | str (s : PyStr)
  | num (q : ℚ)
  | bool (b : Bool)
  | null
  | arr (items : List JValue)
  | obj (fields : List (PyStr × JValue))

mutual

/-- Structural equality test on `JValue` (Python `==` on JSON values). -/
def jvalBeq : JValue → JValue → Bool
  | .str a, .str b => a == b
  | .num a, .num b => a == b
  | .bool a, .bool b => a == b
  | .null, .null => true
  | .arr a, .arr b => jvalListBeq a b
  | .obj a, .obj b => jvalFieldsBeq a b
  | _, _ => false

/-- Elementwise equality on lists of `JValue`. -/
def jvalListBeq : List JValue → List JValue → Bool
  | [], [] => true
  | a :: r1, b :: r2 => jvalBeq a b && jvalListBeq r1 r2
  | _, _ => false

/-- Fieldwise equality on dict entries. -/
def jvalFieldsBeq : List (PyStr × JValue) → List (PyStr × JValue) → Bool
  | [], [] => true
  | (k1, v1) :: r1, (k2, v2) :: r2 => k1 == k2 && jvalBeq v1 v2 && jvalFieldsBeq r1 r2
  | _, _ => false

end

instance : BEq JValue := ⟨jvalBeq⟩

/-- The keys of a dict, in insertion order. -/
def jKeys (fs : List (PyStr × JValue)) : List PyStr := fs.map Prod.fst

/-- First-match lookup in a dict. -/
def jLookup : List (PyStr × JValue) → PyStr → Option JValue
  | [], _ => none
  | p :: rest, key => if p.1 = key then some p.2 else jLookup rest key

/-- Python dict assignment `d[k] = v`: overwrite in place, else append. -/
def jSet (fs : List (PyStr × JValue)) (key : PyStr) (v : JValue) :
    List (PyStr × JValue) :=
  if (jKeys fs).contains key then
    fs.map (fun p => if p.1 = key then (p.1, v) else p)
  else fs ++ [(key, v)]

/-- The dict comprehension `{q: v for q in ks}` with a constant value. -/
def pyDictOfKeys (ks : List PyStr) (v : JValue) : List (PyStr × JValue) :=
  ks.foldl (fun d k => jSet d k v) []

/-- `d.get(key, default)` on a dict. -/
def pyGet (fs : List (PyStr × JValue)) (key : PyStr) (dflt : JValue) : JValue :=
  (jLookup fs key).getD dflt

/-- Python truthiness of a value (`if x:`). -/
def pyTruthy : JValue → Bool
  | .str s => !s.isEmpty
  | .num q => decide (q ≠ 0)
  | .bool b => b
  | .null => false
  | .arr l => !l.isEmpty
  | .obj f => !f.isEmpty

/-- Representative `TypeError` message for `key in v` on a non-container. -/
def inTypeErrMsg : PyStr := "TypeError: argument of type is not iterable".toList

/-- Representative `TypeError` message for `v[key]` with a string key on a
non-dict. -/
def idxTypeErrMsg : PyStr := "TypeError: indices must be integers".toList

/-- Representative `TypeError` message for item assignment on a non-dict. -/
def setTypeErrMsg : PyStr := "TypeError: object does not support item assignment".toList

/-- Representative `TypeError` message for `v > 0.0` on a non-number. -/
def cmpTypeErrMsg : PyStr := "TypeError: not supported between instances".toList

/-- Representative `json.JSONDecodeError` message. -/
def jsonDecodeErrMsg : PyStr := "Expecting value: line 1 column 1 (char 0)".toList

/-- Python `key in v`. -/
def pyMemOf (key : PyStr) : JValue → Except PyStr Bool
  | .obj fs => .ok ((jKeys fs).contains key)
  | .arr items => .ok (items.contains (.str key))
  | .str s => .ok (pyContains s key)
  | _ => .error inTypeErrMsg

/-- Python `v[key]` with a string key. -/
def pyGetItem (v : JValue) (key : PyStr) : Except PyStr JValue :=
  match v with
  | .obj fs =>
    match jLookup fs key with
    | some x => .ok x
    | none => .error ("KeyError".toList ++ key)
  | _ => .error idxTypeErrMsg

/-- Python `v[key] = x` with a string key. -/
def pySetItem (v : JValue) (key : PyStr) (x : JValue) : Except PyStr JValue :=
  match v with
  | .obj fs => .ok (.obj (jSet fs key x))
  | _ => .error setTypeErrMsg

/-- Python `v > q` against a float constant. -/
def pyGtFloat (v : JValue) (q : ℚ) : Except PyStr Bool :=
  match v with
  | .num x => .ok (decide (q < x))
  | .bool b => .ok (decide (q < (if b then (1 : ℚ) else 0)))
  | _ => .error cmpTypeErrMsg

/-!
## Answer Extractor / QAEngine (`src/qa_system.py`: `QAEngine.answer_batch`)

The generation backend is external: one call either raises or returns a text.
`json.loads` is the standard-library JSON parser: it either returns a value
or raises `json.JSONDecodeError`; it is modelled as a parameter
`jp : PyStr → Option JValue`.  Two library facts about it are used only in
*instantiations*, never assumed: it ignores surrounding whitespace, and it
fails on text containing a code fence.
-/

/-- The observable outcome of one `model.generate_content` call. -/
inductive GenOutcome where
  | raiseExc (msg : PyStr)
  | ok (text : PyStr)
deriving Repr

/-- `"Error: Could not parse JSON response"` (`qa_system.py` lines 1089,
1094). -/
def errCouldNotParse : PyStr := "Error: Could not parse JSON response".toList

/-- The field-defaulting block applied to a directly parsed object containing
`'answers'` when sponsor context was supplied (`qa_system.py` lines
1005-1012): ensure `fit_score`, `fit_explanation` and
`tailoring_explanation` are present. -/
def ensureFieldsDirect (result : JValue) : Except PyStr JValue := do
  let b1 ← pyMemOf ("fit_score".toList) result
  let result ← if b1 then pure result else pySetItem result ("fit_score".toList) (.num 0)
  let b2 ← pyMemOf ("fit_explanation".toList) result
  let result ← if b2 then pure result else
    pySetItem result ("fit_explanation".toList)
      (.str ("No fit analysis available - sponsor context was not sufficient for evaluation.".toList))
  let b3 ← pyMemOf ("tailoring_explanation".toList) result
  let result ← if b3 then pure result else
    pySetItem result ("tailoring_explanation".toList)
      (.str ("Responses were tailored based on the sponsor context provided, emphasizing alignment with sponsor priorities and using relevant PHC programs and statistics.".toList))
  return result

/-- The shaping of a directly parsed response (`qa_system.py` lines
999-1026). -/
def shapeParsedDirect (inc : Bool) (result : JValue) : Except PyStr JValue := do
  if inc then
    let b ← pyMemOf ("answers".toList) result
    if b then ensureFieldsDirect result
    else
      return .obj
        [("answers".toList, result),
         ("tailoring_explanation".toList,
          .str ("Responses were tailored based on the sponsor context provided, emphasizing alignment with sponsor priorities and using relevant PHC programs and statistics.".toList)),
         ("fit_score".toList, .num (7 / 2)),
         ("fit_explanation".toList,
          .str ("Unable to provide detailed fit analysis - recommend reviewing sponsor requirements against PHC capabilities.".toList))]
  else
    let b ← pyMemOf ("answers".toList) result
    if b then pyGetItem result ("answers".toList)
    else return result

/-- The field-defaulting block of the fenced-extraction branch (`qa_system.py`
lines 1046-1052 and 1069-1075; its default strings differ from the direct
branch). -/
def ensureFieldsFenced (parsed : JValue) : Except PyStr JValue := do
  let b1 ← pyMemOf ("fit_score".toList) parsed
  let parsed ← if b1 then pure parsed else pySetItem parsed ("fit_score".toList) (.num 0)
  let b2 ← pyMemOf ("fit_explanation".toList) parsed
  let parsed ← if b2 then pure parsed else
    pySetItem parsed ("fit_explanation".toList) (.str ("No fit analysis available.".toList))
  let b3 ← pyMemOf ("tailoring_explanation".toList) parsed
  let parsed ← if b3 then pure parsed else
    pySetItem parsed ("tailoring_explanation".toList)
      (.str ("Responses were tailored based on sponsor context.".toList))
  return parsed

/-- The shaping of a value recovered from a fenced code block (`qa_system.py`
lines 1045-1061 and 1068-1084, identical in both fence branches). -/
def shapeParsedFenced (inc : Bool) (parsed : JValue) : Except PyStr JValue := do
  if inc then
    let b ← pyMemOf ("answers".toList) parsed
    if b then ensureFieldsFenced parsed
    else
      return .obj
        [("answers".toList, parsed),
         ("tailoring_explanation".toList,
          .str ("Responses were tailored based on sponsor context.".toList)),
         ("fit_score".toList, .num 0),
         ("fit_explanation".toList, .str ("No fit analysis available.".toList))]
  else
    let b ← pyMemOf ("answers".toList) parsed
    if !b then return parsed else pyGetItem parsed ("answers".toList)

/-- The last-resort per-question error result (`qa_system.py` lines
1086-1094). -/
def lastResortResult (inc : Bool) (qs : List PyStr) : JValue :=
  if inc then
    .obj
      [("answers".toList, .obj (pyDictOfKeys qs (.str errCouldNotParse))),
       ("tailoring_explanation".toList,
        .str ("Unable to generate tailoring explanation due to parsing error.".toList)),
       ("fit_score".toList, .num 0),
       ("fit_explanation".toList,
        .str ("Unable to generate fit analysis due to parsing error.".toList))]
  else .obj (pyDictOfKeys qs (.str errCouldNotParse))

/-- The body of the `try:` at `qa_system.py` line 981: generate, parse, and
on `JSONDecodeError` strip, re-try, extract from a fenced block, or fall back
to per-question error strings.  A `.error` models an exception escaping to
the outer `except Exception` handler. -/
def qaTryBody (jp : PyStr → Option JValue) (gen : GenOutcome) (qs : List PyStr)
    (inc : Bool) : Except PyStr JValue :=
  match gen with
  | .raiseExc e => .error e
  | .ok rtext =>
    match jp rtext with
    | some result => shapeParsedDirect inc result
    | none =>
      let text := pyStrip rtext
      let step1 : Option JValue :=
        if startsWithChar text '{' && endsWithChar text '}' then jp text else none
      match step1 with
      | some v => .ok v
      | none =>
        if pyContains text ("```json".toList) then
          let js := pyFind text ("```json".toList) + 7
          let je := pyFindFrom text ("```".toList) js.toNat
          if js < je then
            match jp (pyStrip (pySlice text js je)) with
            | some parsed => shapeParsedFenced inc parsed
            | none => .error jsonDecodeErrMsg
          else .ok (lastResortResult inc qs)
        else if pyContains text ("```".toList) then
          let js := pyFind text ("```".toList) + 3
          let je := pyFindFrom text ("```".toList) js.toNat
          if js < je then
            match jp (pyStrip (pySlice text js je)) with
            | some parsed => shapeParsedFenced inc parsed
            | none => .error jsonDecodeErrMsg
          else .ok (lastResortResult inc qs)
        else .ok (lastResortResult inc qs)

/-- Whether an exception message signals a quota problem (`qa_system.py`
lines 1099, 1112). -/
def quotaLike (e : PyStr) : Bool :=
  pyContains e ("429".toList) || pyContains (pyLower e) ("quota".toList) ||
  pyContains (pyLower e) ("rate limit".toList)

/-- The outer `except Exception` handler (`qa_system.py` lines 1096-1114). -/
def qaExceptHandler (inc : Bool) (qs : List PyStr) (e : PyStr) : JValue :=
  if inc then
    if quotaLike e then
      .obj
        [("answers".toList, .obj (pyDictOfKeys qs (.str ("Error: API quota exceeded".toList)))),
         ("tailoring_explanation".toList,
          .str ("Unable to generate tailoring explanation due to API error.".toList)),
         ("fit_score".toList, .num 0),
         ("fit_explanation".toList,
          .str ("Unable to generate fit analysis due to API error.".toList))]
    else
      .obj
        [("answers".toList, .obj (pyDictOfKeys qs (.str ("Error: ".toList ++ e)))),
         ("tailoring_explanation".toList,
          .str ("Unable to generate tailoring explanation due to error.".toList)),
         ("fit_score".toList, .num 0),
         ("fit_explanation".toList,
          .str ("Unable to generate fit analysis due to error.".toList))]
  else
    if quotaLike e then .obj (pyDictOfKeys qs (.str ("Error: API quota exceeded".toList)))
    else .obj (pyDictOfKeys qs (.str ("Error: ".toList ++ e)))

/-- `bool(additional_context and additional_context.strip())` (`qa_system.py`
line 950). -/
def includeTailoring (additional_context : PyStr) : Bool :=
  additional_context ≠ [] && pyStrip additional_context ≠ []

/-- The generation-and-extraction part of `QAEngine.answer_batch`
(`qa_system.py` lines 981-1114), for a given generation-call outcome: run the
body and catch every escaping exception with the outer handler.  The
function is total — the Python function can only ever *return*. -/
def QAEngine_extract (jp : PyStr → Option JValue) (gen : GenOutcome)
    (qs : List PyStr) (additional_context : PyStr) : JValue :=
  let inc := includeTailoring additional_context
  match qaTryBody jp gen qs inc with
  | .ok v => v
  | .error e => qaExceptHandler inc qs e

/-!
## Context Assembler / Prompt Builder (`QAEngine.build_prompt`,
`QAEngine.answer_batch` lines 949-979)

`build_prompt` interleaves a fixed boilerplate template (hundreds of lines of
literal prompt text) with the computed parts: the tier-ordered chunk
sections, the question list, the sponsor-context block and the output-format
section.  The literal segments are abstracted as the fields of a
`PromptTemplate` (every theorem below is proved for *all* segment values, so
in particular for the source's literals); the regex-heuristic "quick
reference" summary distilled from the sponsor context (`qa_system.py` lines
428-468) is abstracted as a function parameter `quickRef` applied to the
cleaned context, as the spec itself treats it (an isolated hint-extraction
helper).  What is kept concrete is everything the shrink-loop and
sponsor-context claims depend on: the assembly order, the tier partition,
the conditional blocks, and the verbatim embedding of the cleaned sponsor
context. -/
structure PromptTemplate where
  fmtTailored : PyStr
  fmtPlain : PyStr
  acsHead : PyStr
  acsMid : PyStr
  acsTail : PyStr
  p1 : PyStr
  p1ctx : PyStr
  p2 : PyStr
  p3 : PyStr
  p3ctx : PyStr
  p4 : PyStr
  p5 : PyStr
  p6 : PyStr
  p7 : PyStr
  p8ctx : PyStr
  p8no : PyStr
  p9 : PyStr
  p9ctx : PyStr
  p10 : PyStr
  p10ctx : PyStr
  p11 : PyStr
deriving Repr

/-- The tier label of a context section (`qa_system.py` lines 411-413). -/
def tierLabel (c : Chunk) : PyStr :=
  if decide (4 ≤ c.priority) then "QUANTITATIVE DATA".toList
  else if decide (3 ≤ c.priority) then "QUALITATIVE INFO".toList
  else if decide (2 ≤ c.priority) then "GRANT EXAMPLE".toList
  else "CONTACT INFO".toList

/-- One chunk rendered as a context section (`qa_system.py` line 414). -/
def contextSection (c : Chunk) : PyStr :=
  '[' :: tierLabel c ++ "] Source: ".toList ++ c.path ++ '\n' :: c.content

/-- The four-tier partition and concatenation of `build_prompt`
(`qa_system.py` lines 400-406). -/
def prioritizedChunks (context_chunks : List Chunk) : List Chunk :=
  context_chunks.filter (fun c => decide (4 ≤ c.priority)) ++
  context_chunks.filter (fun c => decide (3 ≤ c.priority) && decide (c.priority < 4)) ++
  context_chunks.filter (fun c => decide (2 ≤ c.priority) && decide (c.priority < 3)) ++
  context_chunks.filter (fun c => decide (c.priority < 2))

/-- `QAEngine.build_prompt` (`qa_system.py` lines 354-939): template segments
interleaved with the computed parts, in source order. -/
def build_prompt (tpl : PromptTemplate) (quickRef : PyStr → PyStr)
    (questions : List PyStr) (context_chunks : List Chunk)
    (additional_context : PyStr) (inc : Bool) : PyStr :=
  let output_format_section := if inc then tpl.fmtTailored else tpl.fmtPlain
  let context_text :=
    pyJoin ("\n\n---\n\n".toList) ((prioritizedChunks context_chunks).map contextSection)
  let questions_text := pyJoin ['\n'] (questions.map (fun q => '-' :: ' ' :: q))
  let hasCtx := additional_context ≠ [] && pyStrip additional_context ≠ []
  let additional_context_section :=
    if hasCtx then
      let cleaned_context := pyStrip additional_context
      tpl.acsHead ++ quickRef cleaned_context ++ tpl.acsMid ++ cleaned_context ++ tpl.acsTail
    else []
  tpl.p1 ++ (if hasCtx then tpl.p1ctx else []) ++ tpl.p2 ++
  additional_context_section ++ tpl.p3 ++ (if hasCtx then tpl.p3ctx else []) ++
  tpl.p4 ++ context_text ++ tpl.p5 ++ questions_text ++ tpl.p6 ++
  output_format_section ++ tpl.p7 ++ (if hasCtx then tpl.p8ctx else tpl.p8no) ++
  tpl.p9 ++ (if hasCtx then tpl.p9ctx else []) ++ tpl.p10 ++
  (if hasCtx then tpl.p10ctx else []) ++ tpl.p11

/-- `QAEngine.count_tokens` (`qa_system.py` lines 350-352): `len(text) // 2`. -/
def count_tokens (s : PyStr) : Nat := s.length / 2

/-- `QAEngine.max_context_tokens` (`qa_system.py` line 348). -/
def max_context_tokens : Nat := 1000000

/-- The chunk rearrangement at the start of the shrink logic (`qa_system.py`
lines 963-964): chunks of priority at least 4 first, then the rest, each
group in original order. -/
def quantFirst (chunks : List Chunk) : List Chunk :=
  chunks.filter (fun c => decide (4 ≤ c.priority)) ++
  chunks.filter (fun c => decide (c.priority < 4))

/-- The shrink loop of `QAEngine.answer_batch` (`qa_system.py` lines
966-974): while the rebuilt prompt is over budget and attempts remain, stop
if at most 10 chunks are left, otherwise drop the last chunk.  The fuel is
the source's `max_attempts = 50`. -/
def shrinkLoop (tpl : PromptTemplate) (quickRef : PyStr → PyStr)
    (qs : List PyStr) (ctx : PyStr) (inc : Bool) :
    Nat → List Chunk → List Chunk
  | 0, reduced => reduced
  | fuel + 1, reduced =>
    if decide (max_context_tokens < count_tokens (build_prompt tpl quickRef qs reduced ctx inc)) then
      if decide (reduced.length ≤ 10) then reduced
      else shrinkLoop tpl quickRef qs ctx inc fuel reduced.dropLast
    else reduced

/-- The prompt-preparation part of `QAEngine.answer_batch` (`qa_system.py`
lines 949-979): build the prompt; when over budget, rearrange quantitative
chunks first and shrink from the end; return the final prompt and the chunks
it was built from. -/
def QAEngine_prepare_prompt (tpl : PromptTemplate) (quickRef : PyStr → PyStr)
    (qs : List PyStr) (context_chunks : List Chunk) (additional_context : PyStr) :
    PyStr × List Chunk :=
  let inc := includeTailoring additional_context
  let prompt := build_prompt tpl quickRef qs context_chunks additional_context inc
  if decide (max_context_tokens < count_tokens prompt) then
    let reduced := shrinkLoop tpl quickRef qs additional_context inc 50 (quantFirst context_chunks)
    (build_prompt tpl quickRef qs reduced additional_context inc, reduced)
  else (prompt, context_chunks)

/-- `QAEngine.answer_batch` (`qa_system.py` lines 941-1114), end to end:
prepare the (possibly shrunk) prompt, submit it to the generation backend
(`genF`, a function from prompt text to call outcome), and extract. -/
def QAEngine_answer_batch (tpl : PromptTemplate) (quickRef : PyStr → PyStr)
    (jp : PyStr → Option JValue) (genF : PyStr → GenOutcome)
    (qs : List PyStr) (context_chunks : List Chunk)
    (additional_context : PyStr) : JValue :=
  let prompt := (QAEngine_prepare_prompt tpl quickRef qs context_chunks additional_context).1
  QAEngine_extract jp (genF prompt) qs additional_context

/-!
## Orchestrator (`src/qa_system.py`: `PHCQASystem.answer_batch`)

The index search is the external suspension point of retrieval; it is
modelled as a function `search : query → top_k → chunk list` (either path of
`VectorSearcher.search` realises it).
-/

/-- The stop words of the combined-query builder (`qa_system.py` line 1166). -/
def combinedStopwords : List PyStr :=
  ["what", "how", "when", "where", "why", "does", "is", "are", "the", "and",
   "for", "with"].map String.toList

/-- The per-question keyword extraction of the combined query (`qa_system.py`
lines 1163-1167): lower-cased whitespace tokens longer than three characters
that are not stop words, first five kept. -/
def importantWords (q : PyStr) : List PyStr :=
  ((pySplitWs (pyLower q)).filter
    (fun w => decide (3 < w.length) && !combinedStopwords.contains w)).take 5

/-- The combined search query (`qa_system.py` lines 1161-1169): the first
twenty extracted keywords joined by spaces. -/
def combinedQuery (qs : List PyStr) : PyStr :=
  pyJoin [' '] ((qs.flatMap importantWords).take 20)

/-- `(chunk['path'], chunk.get('start_line', 0))` (`qa_system.py` line
1175). -/
def chunkId (c : Chunk) : PyStr × Nat := (c.path, c.start_line)

/-- The retrieval accumulator of `PHCQASystem.answer_batch`: the deduplicated
pooled chunks, the seen chunk ids, and the per-question chunk lists used for
source attribution. -/
structure RetrievalState where
  all_chunks : List Chunk
  seen_ids : List (PyStr × Nat)
  question_chunks : List (PyStr × List Chunk)

/-- `{q: [] for q in questions}` (`qa_system.py` line 1156). -/
def qcInit (qs : List PyStr) : List (PyStr × List Chunk) :=
  qs.foldl (fun d q => if (d.map Prod.fst).contains q then d else d ++ [(q, [])]) []

/-- `question_chunks[q].append(chunk)`. -/
def qcAppend (d : List (PyStr × List Chunk)) (q : PyStr) (c : Chunk) :
    List (PyStr × List Chunk) :=
  d.map (fun p => if p.1 = q then (p.1, p.2 ++ [c]) else p)

/-- `question_chunks.get(q, [])` (`qa_system.py` line 1246). -/
def qcGet (d : List (PyStr × List Chunk)) (q : PyStr) : List Chunk :=
  match d.find? (fun p => p.1 = q) with
  | some p => p.2
  | none => []

/-- Adding one combined-query result chunk (`qa_system.py` lines 1174-1181):
new chunks are pooled and attributed to *every* question. -/
def addCombinedChunk (qs : List PyStr) (st : RetrievalState) (c : Chunk) :
    RetrievalState :=
  if st.seen_ids.contains (chunkId c) then st
  else
    { all_chunks := st.all_chunks ++ [c],
      seen_ids := st.seen_ids ++ [chunkId c],
      question_chunks := qs.foldl (fun d q => qcAppend d q c) st.question_chunks }

/-- Adding one individual-search result chunk (`qa_system.py` lines
1188-1196 and 1199-1207): new chunks are pooled; the chunk is attributed to
the searched question whether or not it was new. -/
def addIndivChunk (q : PyStr) (st : RetrievalState) (c : Chunk) : RetrievalState :=
  let st' :=
    if st.seen_ids.contains (chunkId c) then st
    else
      { st with
        all_chunks := st.all_chunks ++ [c],
        seen_ids := st.seen_ids ++ [chunkId c] }
  { st' with question_chunks := qcAppend st'.question_chunks q c }

/-- The retrieval phase of `PHCQASystem.answer_batch` (`qa_system.py` lines
1150-1207): for more than three questions, one combined-query search with
`top_k * 2` followed by individual refinement searches of the first
`min(3, n)` questions with `top_k // 2`; otherwise one search per question
with `top_k`. -/
def retrieve (search : PyStr → Nat → List Chunk) (qs : List PyStr) (top_k : Nat) :
    RetrievalState :=
  let st0 : RetrievalState := ⟨[], [], qcInit qs⟩
  if decide (3 < qs.length) then
    let st1 := (search (combinedQuery qs) (top_k * 2)).foldl (addCombinedChunk qs) st0
    (qs.take (min 3 qs.length)).foldl
      (fun st q => (search q (top_k / 2)).foldl (addIndivChunk q) st) st1
  else
    qs.foldl (fun st q => (search q top_k).foldl (addIndivChunk q) st) st0

/-- The fixed no-retrieval answer (`qa_system.py` lines 1212, 1220). -/
def noInfoMsg : PyStr := "No relevant information found in the knowledge base.".toList

/-- `sorted(list(question_sources))` over the non-empty chunk paths of one
question (`qa_system.py` lines 1244-1252): distinct paths in ascending
code-point order. -/
def sourcesFor (cs : List Chunk) : List PyStr :=
  (((cs.map Chunk.path).filter (fun p => !p.isEmpty)).eraseDups).mergeSort pyStrLe

/-- The short-circuit result returned when retrieval found nothing
(`qa_system.py` lines 1209-1220). -/
def noRetrievalResult (qs : List PyStr) (additional_context : PyStr)
    (return_sources : Bool) : JValue :=
  if return_sources then
    let base :=
      [("answers".toList, JValue.obj (pyDictOfKeys qs (.str noInfoMsg))),
       ("sources".toList, JValue.obj (pyDictOfKeys qs (.arr [])))]
    if includeTailoring additional_context then
      .obj (base ++
        [("tailoring_explanation".toList,
          .str ("Unable to tailor responses - no relevant information found in knowledge base.".toList)),
         ("fit_score".toList, .num 0),
         ("fit_explanation".toList,
          .str ("Unable to assess fit - no relevant information found in knowledge base to compare against sponsor requirements.".toList))])
    else .obj base
  else .obj (pyDictOfKeys qs (.str noInfoMsg))

/-- The format-splitting step applied to the engine result (`qa_system.py`
lines 1226-1238): a dict containing `'answers'` is unpacked, anything else
is the answers value itself with empty/zero companions. -/
def splitEngineResult (result : JValue) : JValue × JValue × JValue × JValue :=
  match result with
  | .obj fs =>
    if (jKeys fs).contains ("answers".toList) then
      (pyGet fs ("answers".toList) .null,
       pyGet fs ("tailoring_explanation".toList) (.str []),
       pyGet fs ("fit_score".toList) (.num 0),
       pyGet fs ("fit_explanation".toList) (.str []))
    else (result, .str [], .num 0, .str [])
  | _ => (result, .str [], .num 0, .str [])

/-- The result-assembly phase of `PHCQASystem.answer_batch` (`qa_system.py`
lines 1222-1266): split the engine result into its components and, when
sources were requested or a tailoring explanation is present, wrap the
answers with per-question sorted-unique source lists and the optional
tailoring/fit entries. -/
def phcAssemble (question_chunks : List (PyStr × List Chunk)) (qs : List PyStr)
    (return_sources : Bool) (result : JValue) : Except PyStr JValue := do
  let parts := splitEngineResult result
  let answers := parts.1
  let tailoring_explanation := parts.2.1
  let fit_score := parts.2.2.1
  let fit_explanation := parts.2.2.2
  if return_sources || pyTruthy tailoring_explanation then
    let sources_map :=
      qs.foldl
        (fun d q =>
          jSet d q (.arr ((sourcesFor (qcGet question_chunks q)).map JValue.str)))
        []
    let response :=
      [("answers".toList, answers), ("sources".toList, JValue.obj sources_map)]
    let response :=
      if pyTruthy tailoring_explanation then
        jSet response ("tailoring_explanation".toList) tailoring_explanation
      else response
    let gt0 ← pyGtFloat fit_score 0
    let response :=
      if gt0 then jSet response ("fit_score".toList) fit_score else response
    let response :=
      if pyTruthy fit_explanation then
        jSet response ("fit_explanation".toList) fit_explanation
      else response
    return .obj response
  else
    return answers

/-- `PHCQASystem.answer_batch` (`qa_system.py` lines 1140-1266).  A `.error`
result models an exception escaping the function (it has no handler of its
own). -/
def PHC_answer_batch (tpl : PromptTemplate) (quickRef : PyStr → PyStr)
    (jp : PyStr → Option JValue) (genF : PyStr → GenOutcome)
    (search : PyStr → Nat → List Chunk) (qs : List PyStr) (top_k : Nat)
    (additional_context : PyStr) (return_sources : Bool) :
    Except PyStr JValue :=
  let st := retrieve search qs top_k
  if st.all_chunks.isEmpty then
    .ok (noRetrievalResult qs additional_context return_sources)
  else
    phcAssemble st.question_chunks qs return_sources
      (QAEngine_answer_batch tpl quickRef jp genF qs st.all_chunks additional_context)

/-- The answers-map extraction performed by the caller (`main.py` lines
308-316 and `qa_system.py`'s own docstring): a dict containing `'answers'`
yields that entry, anything else is itself the answers map. -/
def extractAnswersMap (result : JValue) : JValue :=
  match result with
  | .obj fs =>
    if (jKeys fs).contains ("answers".toList) then pyGet fs ("answers".toList) .null
    else result
  | _ => result

/-!
## Concrete fixtures

Closed instantiations of the external collaborators, used by the witnesses
and counterexamples below.  Each parser fixture is consistent with
`json.loads`: it succeeds exactly on the syntactically valid JSON documents
among the finitely many strings the run feeds it, and fails on all other
fed strings (in particular on any text containing a code fence, which is
not valid JSON).
-/

/-- A prompt template with empty boilerplate segments. -/
def emptyTemplate : PromptTemplate :=
  ⟨[], [], [], [], [], [], [], [], [], [], [], [], [], [], [], [], [], [], [], [], []⟩

/-- A quick-reference extractor that finds no sponsor hints. -/
def noQuickRef : PyStr → PyStr := fun _ => []

/-- A sample question (long enough to be a valid parsed question). -/
def sampleQuestion : PyStr := "What is PHC about?".toList

/-- A sample knowledge-base chunk. -/
def sampleChunk : Chunk :=
  ⟨"quantitative/a.md".toList, "a.md".toList, "PHC served 15081 participants".toList, 0, 1, 4⟩

/-- A search behaviour returning the sample chunk for every query. -/
def oneChunkSearch : PyStr → Nat → List Chunk := fun _ _ => [sampleChunk]

/-- A generation backend that answers every prompt with the fixed text
`RESP`. -/
def respGen : PyStr → GenOutcome := fun _ => .ok ("RESP".toList)

/-- A `json.loads` behaviour for a run in which the model's reply `RESP` is
parsed as the valid JSON document `{"other": "x"}` would be — an object
whose single key is not one of the requested questions. -/
def wrongKeyParser : PyStr → Option JValue := fun s =>
  if s = "RESP".toList then some (.obj [("other".toList, .str ("x".toList))]) else none

/-- The JSON object text between the fences of the fenced reply: the ten
characters of a one-field object mapping `Q` to `A` (braces and double
quotes are given by code point). -/
def fencedBody : PyStr :=
  [Char.ofNat 123, Char.ofNat 34, 'Q', Char.ofNat 34, ':', ' ',
   Char.ofNat 34, 'A', Char.ofNat 34, Char.ofNat 125]

/-- A generation reply carrying valid JSON inside a fenced code block
opened by the json marker. -/
def fencedReply : PyStr := "```json\n".toList ++ fencedBody ++ '\n' :: "```".toList

/-- A `json.loads` behaviour for the fenced-reply run: the full reply (and
its stripped form) contain backticks and fail to parse, while the extracted
fence body parses to the corresponding one-field object. -/
def fencedParser : PyStr → Option JValue := fun s =>
  if s = fencedBody then some (.obj [("Q".toList, .str ("A".toList))]) else none

/-- The three-line document of the chunk-length counterexample. -/
def threeLineDoc : Document :=
  ⟨"d.md".toList, "aaaaa\nbbbbb\nc".toList, "d.md".toList, 4⟩

/-- Two one-line chunks for the embedding-count counterexample. -/
def chunkA : Chunk := ⟨"a.md".toList, "a.md".toList, "alpha".toList, 0, 1, 4⟩

/-- Second chunk of the embedding-count counterexample. -/
def chunkB : Chunk := ⟨"b.md".toList, "b.md".toList, "beta".toList, 0, 1, 4⟩

/-- A batch-embedding backend returning, for every batch, a dict whose
`'embedding'` value is one flat list of numbers (a well-formed response of
the single-embedding shape the code explicitly handles). -/
def flatRespCall : List PyStr → BatchResp := fun _ => .dictEmb [PyVal.num 1, PyVal.num 2]

/-- An individual-embedding backend whose every call raises. -/
def failEmbedOne : PyStr → IndResp := fun _ => .raiseExc ("boom".toList)

/-- A search behaviour that finds nothing for any query. -/
def emptySearch : PyStr → Nat → List Chunk := fun _ _ => []

/-!
# Theorems

General lemmas about the embedded Python primitives come first, then the
claim theorems with their witnesses and counterexamples.
-/

/-- Upper-casing an ASCII character never yields a lower-case letter. -/
theorem pyUpperChar_not_lower (c : Char) : pyIsAsciiLower (pyUpperChar c) = false := by
  unfold pyUpperChar
  by_cases h : pyIsAsciiLower c = true
  · rw [if_pos h]
    have hb : 97 ≤ c.toNat ∧ c.toNat ≤ 122 := by
      simpa [pyIsAsciiLower] using h
    have hv : (Char.ofNat (c.toNat - 32)).toNat = c.toNat - 32 := by
      unfold Char.ofNat
      split
      · rfl
      · omega
    simp only [pyIsAsciiLower, hv, Bool.and_eq_false_iff, decide_eq_false_iff_not]
    left
    omega
  · rw [if_neg h]
    exact Bool.not_eq_true _ ▸ (by simpa using h)

/-- Lower-casing is idempotent on characters (ASCII model). -/
theorem pyLowerChar_idem (c : Char) : pyLowerChar (pyLowerChar c) = pyLowerChar c := by
  unfold pyLowerChar
  by_cases h : pyIsAsciiUpper c = true
  · rw [if_pos h]
    have hb : 65 ≤ c.toNat ∧ c.toNat ≤ 90 := by
      simpa [pyIsAsciiUpper] using h
    have hv : (Char.ofNat (c.toNat + 32)).toNat = c.toNat + 32 := by
      unfold Char.ofNat
      split
      · rfl
      · omega
    have hlow : pyIsAsciiUpper (Char.ofNat (c.toNat + 32)) = false := by
      simp only [pyIsAsciiUpper, hv, Bool.and_eq_false_iff, decide_eq_false_iff_not]
      right
      omega
    rw [if_neg (by simp [hlow])]
  · rw [if_neg h, if_neg h]

/-- Lower-casing is idempotent on strings (ASCII model). -/
theorem pyLower_idem (s : PyStr) : pyLower (pyLower s) = pyLower s := by
  unfold pyLower
  rw [List.map_map]
  apply List.map_congr_left
  intro c _
  exact pyLowerChar_idem c

/-- A key is present in a dict exactly when its lookup succeeds. -/
theorem jLookup_isSome_iff (fs : List (PyStr × JValue)) (k : PyStr) :
    (jLookup fs k).isSome = true ↔ k ∈ jKeys fs := by
  induction fs with
  | nil =>
    constructor
    · intro h
      simp [jLookup] at h
    · intro h
      simp [jKeys] at h
  | cons hd tl ih =>
    simp only [jLookup, jKeys, List.map_cons, List.mem_cons]
    by_cases h : hd.1 = k
    · constructor
      · intro _
        exact Or.inl h.symm
      · intro _
        rw [if_pos h]
        rfl
    · rw [if_neg h, ih]
      have hne : ¬(k = hd.1) := fun hc => h hc.symm
      constructor
      · intro hm
        exact Or.inr hm
      · rintro (hc | hm)
        · exact absurd hc hne
        · exact hm

/-- Lookup after the in-place overwrite branch of `jSet`. -/
theorem jLookup_map_update (fs : List (PyStr × JValue)) (k : PyStr) (v : JValue)
    (q : PyStr) :
    jLookup (fs.map (fun p => if p.1 = k then (p.1, v) else p)) q =
      if q = k then (if (jLookup fs k).isSome then some v else none)
      else jLookup fs q := by
  induction fs with
  | nil => by_cases hq : q = k <;> simp [jLookup, hq]
  | cons hd tl ih =>
    by_cases hh : hd.1 = k
    · by_cases hq : q = k
      · subst hq
        simp [jLookup, hh, List.map_cons]
      · have hne : hd.1 ≠ q := fun hcon => hq (hcon.symm.trans hh)
        have hkq : k ≠ q := fun hc => hq hc.symm
        simp [jLookup, List.map_cons, hh, hne, hq, hkq, ih]
    · by_cases hq : q = k
      · subst hq
        simp [jLookup, List.map_cons, hh, ih]
      · by_cases hdq : hd.1 = q
        · simp [List.map_cons, jLookup, hh, hdq, hq]
        · simp [List.map_cons, jLookup, hh, hdq, hq, ih]

/-- Lookup after the append branch of `jSet`. -/
theorem jLookup_append_single (fs : List (PyStr × JValue)) (k : PyStr) (v : JValue)
    (q : PyStr) :
    jLookup (fs ++ [(k, v)]) q =
      match jLookup fs q with
      | some x => some x
      | none => if q = k then some v else none := by
  induction fs with
  | nil =>
    simp only [List.nil_append, jLookup]
    by_cases hq : k = q
    · simp [hq]
    · have hqk : ¬(q = k) := fun hc => hq hc.symm
      simp [hq, hqk]
  | cons hd tl ih =>
    by_cases hh : hd.1 = q <;> simp [jLookup, hh, ih]

/-- Looking up in `jSet fs k v`: the assigned key reads back `v`, other keys
are unaffected. -/
theorem jLookup_jSet (fs : List (PyStr × JValue)) (k : PyStr) (v : JValue) (q : PyStr) :
    jLookup (jSet fs k v) q = if q = k then some v else jLookup fs q := by
  unfold jSet
  by_cases hc : (jKeys fs).contains k = true
  · rw [if_pos hc, jLookup_map_update]
    by_cases hq : q = k
    · have hs : (jLookup fs k).isSome = true :=
        (jLookup_isSome_iff fs k).mpr (List.elem_iff.mp hc)
      simp [hq, hs]
    · simp [hq]
  · rw [if_neg hc, jLookup_append_single]
    by_cases hq : q = k
    · subst hq
      have hnone : jLookup fs q = none := by
        cases hl : jLookup fs q with
        | none => rfl
        | some x =>
          exfalso
          exact hc (List.elem_iff.mpr ((jLookup_isSome_iff fs q).mp (by simp [hl])))
      simp [hnone]
    · cases hl : jLookup fs q <;> simp [hl, hq]

/-- The key list of the in-place overwrite branch of `jSet` is unchanged. -/
theorem jKeys_map_update (fs : List (PyStr × JValue)) (k : PyStr) (v : JValue) :
    jKeys (fs.map (fun p => if p.1 = k then (p.1, v) else p)) = jKeys fs := by
  simp only [jKeys, List.map_map]
  apply List.map_congr_left
  intro p _
  by_cases hp : p.1 = k <;> simp [hp]

/-- `jSet` leaves the key list unchanged when the key is present, otherwise
appends the key. -/
theorem jKeys_jSet (fs : List (PyStr × JValue)) (k : PyStr) (v : JValue) :
    jKeys (jSet fs k v) = if k ∈ jKeys fs then jKeys fs else jKeys fs ++ [k] := by
  unfold jSet
  by_cases h : k ∈ jKeys fs
  · rw [if_pos (List.elem_iff.mpr h), if_pos h, jKeys_map_update]
  · rw [if_neg (fun hc => h (List.elem_iff.mp hc)), if_neg h]
    simp [jKeys]

/-- Looking up a constant-valued dict comprehension: keys of the list read
back the constant, others are absent. -/
theorem jLookup_pyDictOfKeys (ks : List PyStr) (v : JValue) (q : PyStr) :
    jLookup (pyDictOfKeys ks v) q = if q ∈ ks then some v else none := by
  unfold pyDictOfKeys
  suffices h : ∀ d, jLookup (ks.foldl (fun d k => jSet d k v) d) q =
      if q ∈ ks then some v else jLookup d q by
    simpa using h []
  induction ks with
  | nil => intro d; simp
  | cons k ks ih =>
    intro d
    simp only [List.foldl_cons, ih (jSet d k v), jLookup_jSet, List.mem_cons]
    by_cases h1 : q ∈ ks
    · simp [h1]
    · by_cases h2 : q = k <;> simp [h1, h2]

/-- The keys of a constant-valued dict comprehension are duplicate-free and
are exactly the distinct elements of the key list. -/
theorem jKeys_pyDictOfKeys (ks : List PyStr) (v : JValue) :
    (jKeys (pyDictOfKeys ks v)).Nodup ∧
    (∀ q, q ∈ jKeys (pyDictOfKeys ks v) ↔ q ∈ ks) := by
  unfold pyDictOfKeys
  suffices h : ∀ d, (jKeys d).Nodup →
      (jKeys (ks.foldl (fun d k => jSet d k v) d)).Nodup ∧
      (∀ q, q ∈ jKeys (ks.foldl (fun d k => jSet d k v) d) ↔ q ∈ jKeys d ∨ q ∈ ks) by
    obtain ⟨h1, h2⟩ := h [] (by simp [jKeys])
    refine ⟨h1, fun q => ?_⟩
    rw [h2 q]
    simp [jKeys]
  induction ks with
  | nil =>
    intro d hd
    simp only [List.foldl_nil]
    exact ⟨hd, fun q => by simp⟩
  | cons k ks ih =>
    intro d hd
    have hstep : (jKeys (jSet d k v)).Nodup := by
      rw [jKeys_jSet]
      by_cases h : k ∈ jKeys d
      · simpa [h] using hd
      · simp only [h, if_false]
        refine List.Nodup.append hd (List.nodup_singleton k) ?_
        intro a ha hak
        rw [List.mem_singleton] at hak
        exact h (hak ▸ ha)
    obtain ⟨h1, h2⟩ := ih (jSet d k v) hstep
    refine ⟨h1, fun q => ?_⟩
    rw [List.foldl_cons, h2 q, jKeys_jSet]
    by_cases h : k ∈ jKeys d
    · simp only [h, if_true, List.mem_cons]
      constructor
      · rintro (hq | hq)
        · exact Or.inl hq
        · exact Or.inr (Or.inr hq)
      · rintro (hq | hq | hq)
        · exact Or.inl hq
        · exact Or.inl (hq ▸ h)
        · exact Or.inr hq
    · simp only [h, if_false, List.mem_append, List.mem_singleton, List.mem_cons]
      tauto

/-!
## C4 — document priority
-/

/-- C4: Document priority is a pure function of the lower-cased path, with
tier 4.0 for a path containing `quantitative` — demoted to 2.0 when it also
contains `donations_summary` — then 3.0 for `qualitative`, 2.0 for
`grant_example`, 1.0 for `contact`, and 1.5 otherwise. -/
theorem claim4_folder_priority (path : PyStr) :
    get_folder_priority path = get_folder_priority (pyLower path) ∧
    (pyContains (pyLower path) ("quantitative".toList) = true →
      pyContains (pyLower path) ("donations_summary".toList) = true →
      get_folder_priority path = 2) ∧
    (pyContains (pyLower path) ("quantitative".toList) = true →
      pyContains (pyLower path) ("donations_summary".toList) = false →
      get_folder_priority path = 4) ∧
    (pyContains (pyLower path) ("quantitative".toList) = false →
      pyContains (pyLower path) ("qualitative".toList) = true →
      get_folder_priority path = 3) ∧
    (pyContains (pyLower path) ("quantitative".toList) = false →
      pyContains (pyLower path) ("qualitative".toList) = false →
      pyContains (pyLower path) ("grant_example".toList) = true →
      get_folder_priority path = 2) ∧
    (pyContains (pyLower path) ("quantitative".toList) = false →
      pyContains (pyLower path) ("qualitative".toList) = false →
      pyContains (pyLower path) ("grant_example".toList) = false →
      pyContains (pyLower path) ("contact".toList) = true →
      get_folder_priority path = 1) ∧
    (pyContains (pyLower path) ("quantitative".toList) = false →
      pyContains (pyLower path) ("qualitative".toList) = false →
      pyContains (pyLower path) ("grant_example".toList) = false →
      pyContains (pyLower path) ("contact".toList) = false →
      get_folder_priority path = 3 / 2) := by
  refine ⟨?_, ?_, ?_, ?_, ?_, ?_, ?_⟩
  · unfold get_folder_priority
    rw [pyLower_idem]
  all_goals
    intros
    unfold get_folder_priority
    simp_all

/-- Witness for C4 at the demoted donations-summary path and a plain
quantitative path. -/
theorem claim4_witness :
    get_folder_priority ("Quantitative/phc_donations_summary_2021_2025.md".toList) = 2 ∧
    get_folder_priority ("quantitative/phc_impact_2024.md".toList) = 4 :=
  ⟨(claim4_folder_priority ("Quantitative/phc_donations_summary_2021_2025.md".toList)).2.1
      (by decide) (by decide),
   (claim4_folder_priority ("quantitative/phc_impact_2024.md".toList)).2.2.1
      (by decide) (by decide)⟩

/-!
## C5 — chunk length
-/

/-- Every element of a list is bounded by its `foldr max`. -/
theorem le_foldr_max (xs : List Nat) (x : Nat) : x ∈ xs → x ≤ xs.foldr max 0 := by
  induction xs with
  | nil =>
    intro h
    simp at h
  | cons hd tl ih =>
    intro h
    rcases List.mem_cons.mp h with h | h
    · subst h
      exact le_max_left _ _
    · exact le_trans (ih h) (le_max_right _ _)

/-- The `s[-n:]` slice has at most `n` characters. -/
theorem pyLastN_length_le (s : PyStr) (n : Nat) : (pyLastN s n).length ≤ n := by
  unfold pyLastN
  rw [List.length_drop]
  omega

/-- The newline splitter always returns at least one piece. -/
theorem splitNlAux_ne_nil (s acc : PyStr) : splitNlAux s acc ≠ [] := by
  induction s generalizing acc with
  | nil => simp [splitNlAux]
  | cons c t ih =>
    by_cases h : c = '\n'
    · simp [splitNlAux, h]
    · simpa [splitNlAux, h] using ih (c :: acc)

/-- `pyJoin` on a cons with a non-empty tail. -/
theorem pyJoin_cons_ne (sep x : PyStr) (l : List PyStr) (h : l ≠ []) :
    pyJoin sep (x :: l) = x ++ sep ++ pyJoin sep l := by
  cases l with
  | nil => exact absurd rfl h
  | cons y ys => rfl

/-- Joining the newline split of a string with newlines is the identity
(`'\n'.join(s.split('\n')) == s`). -/
theorem pyJoin_splitNlAux (s acc : PyStr) :
    pyJoin ['\n'] (splitNlAux s acc) = acc.reverse ++ s := by
  induction s generalizing acc with
  | nil => simp [splitNlAux, pyJoin]
  | cons c t ih =>
    by_cases h : c = '\n'
    · subst h
      rw [show splitNlAux ('\n' :: t) acc = acc.reverse :: splitNlAux t [] from by
        simp [splitNlAux]]
      rw [pyJoin_cons_ne _ _ _ (splitNlAux_ne_nil t []), ih]
      simp
    · simp only [splitNlAux, if_neg h]
      rw [ih]
      simp

/-- Joining the newline split of a string with newlines is the identity. -/
theorem pyJoin_pySplitNl (s : PyStr) : pyJoin ['\n'] (pySplitNl s) = s := by
  simpa using pyJoin_splitNlAux s []

/-- The uniform bound on chunk contents: one more than `chunk_size` (the
joining newline), or the overlap carry plus a newline plus the longest
line. -/
def chunkBound (chunk_size overlap m : Nat) : Nat :=
  max (chunk_size + 1) (overlap + 1 + m)

/-- The chunking loop keeps every emitted chunk, and the running buffer,
within `chunkBound`. -/
theorem chunkLoop_bound (doc : Document) (cs ov m : Nat) :
    ∀ (lines : List PyStr) (i : Nat) (current : PyStr) (cstart : Nat),
      (∀ l ∈ lines, l.length ≤ m) →
      current.length ≤ chunkBound cs ov m →
      (∀ c ∈ (chunkLoop doc cs ov lines i current cstart).1,
        c.content.length ≤ chunkBound cs ov m) ∧
      (chunkLoop doc cs ov lines i current cstart).2.1.length ≤ chunkBound cs ov m := by
  intro lines
  induction lines with
  | nil =>
    intro i current cstart _ hcur
    exact ⟨fun c hc => by simp [chunkLoop] at hc, by simpa [chunkLoop] using hcur⟩
  | cons line rest ih =>
    intro i current cstart hl hcur
    have hline : line.length ≤ m := hl line (by simp)
    have hrest : ∀ l ∈ rest, l.length ≤ m := fun l hm => hl l (by simp [hm])
    unfold chunkLoop
    by_cases hg : (decide (cs < current.length + line.length) && decide (current ≠ [])) = true
    · rw [if_pos hg]
      have hseed :
          (pyJoin ['\n'] (if 0 < ov then pySplitNl (pyLastN current ov) else []) ++
            '\n' :: line).length ≤ chunkBound cs ov m := by
        by_cases hov : 0 < ov
        · rw [if_pos hov, pyJoin_pySplitNl]
          have h1 := pyLastN_length_le current ov
          simp only [List.length_append, List.length_cons, chunkBound]
          omega
        · rw [if_neg hov]
          simp only [pyJoin, List.nil_append, List.length_cons, chunkBound]
          omega
      obtain ⟨h1, h2⟩ := ih (i + 1) _ _ hrest hseed
      refine ⟨?_, h2⟩
      intro c hc
      rcases List.mem_cons.mp hc with hc | hc
      · subst hc
        exact hcur
      · exact h1 c hc
    · rw [if_neg hg]
      have hnew : (if current = [] then line else current ++ '\n' :: line).length ≤
          chunkBound cs ov m := by
        by_cases hemp : current = []
        · rw [if_pos hemp]
          simp only [chunkBound]
          omega
        · rw [if_neg hemp]
          have hle : current.length + line.length ≤ cs := by
            by_cases hcs : cs < current.length + line.length
            · exfalso
              apply hg
              simp [hcs, hemp]
            · omega
          simp only [List.length_append, List.length_cons, chunkBound]
          omega
      exact ih (i + 1) _ _ hrest hnew

/-- C5 (amended): every chunk of `get_chunks` has content length at most
`max (chunk_size + 1) (overlap + 1 + maxLineLen doc)` for its document; the
original `chunk_size` bound fails (see the counterexample). -/
theorem claim5_chunk_length_bound (docs : List Document) (chunk_size overlap : Nat) :
    ∀ c ∈ get_chunks docs chunk_size overlap,
      ∃ d ∈ docs, c.content.length ≤ chunkBound chunk_size overlap (maxLineLen d) := by
  intro c hc
  unfold get_chunks at hc
  obtain ⟨d, hd, hcd⟩ := List.mem_flatMap.mp hc
  refine ⟨d, hd, ?_⟩
  unfold docChunks at hcd
  have hlines : ∀ l ∈ pySplitNl d.content, l.length ≤ maxLineLen d := by
    intro l hl
    exact le_foldr_max _ _ (List.mem_map.mpr ⟨l, hl, rfl⟩)
  obtain ⟨h1, h2⟩ := chunkLoop_bound d chunk_size overlap (maxLineLen d)
    (pySplitNl d.content) 0 [] 0 hlines (by simp [chunkBound])
  by_cases hfin :
      pyStrip (chunkLoop d chunk_size overlap (pySplitNl d.content) 0 [] 0).2.1 = []
  · simp only [hfin] at hcd
    simp only [ne_eq, not_true_eq_false, if_false] at hcd
    exact h1 c hcd
  · simp only [ne_eq, hfin, not_false_eq_true, if_true] at hcd
    rcases List.mem_append.mp hcd with hc2 | hc2
    · exact h1 c hc2
    · rw [List.mem_singleton] at hc2
      subst hc2
      exact h2

/-- Witness for C5 (amended): the bound evaluated at the first chunk of the
three-line document with `chunk_size = 10`, `overlap = 0`. -/
theorem claim5_witness :
    (⟨"d.md".toList, "d.md".toList, "aaaaa\nbbbbb".toList, 0, 2, 4⟩ : Chunk) ∈
      get_chunks [threeLineDoc] 10 0 ∧
    ∃ d ∈ [threeLineDoc],
      (Chunk.content ⟨"d.md".toList, "d.md".toList, "aaaaa\nbbbbb".toList, 0, 2, 4⟩).length ≤
        chunkBound 10 0 (maxLineLen d) :=
  ⟨by decide,
   claim5_chunk_length_bound [threeLineDoc] 10 0
     ⟨"d.md".toList, "d.md".toList, "aaaaa\nbbbbb".toList, 0, 2, 4⟩ (by decide)⟩

/-- Counterexample to C5 as stated: with `chunk_size = 10` and `overlap = 0`
the document `aaaaa\nbbbbb\nc` yields a first chunk of 11 characters — more
than `chunk_size` — that consists of *two* lines of five characters each, so
it is not a single unsplittable line longer than `chunk_size`. -/
theorem claim5_counterexample :
    ∃ c ∈ get_chunks [threeLineDoc] 10 0,
      10 < c.content.length ∧ (pySplitNl c.content).length = 2 ∧
      (∀ l ∈ pySplitNl c.content, l.length ≤ 10) := by
  refine ⟨⟨"d.md".toList, "d.md".toList, "aaaaa\nbbbbb".toList, 0, 2, 4⟩, ?_, ?_, ?_, ?_⟩
  · show _ ∈ get_chunks [threeLineDoc] 10 0
    decide
  · decide
  · decide
  · decide

/-!
## C3 — deduplication in `parse_questions`

The source adds `question.lower().strip()` to `seen` but tests the membership
of `question` itself, so a question containing an upper-case letter is never
recognised as already seen: exact duplicates survive.
-/

/-- C3: evaluating `parse_questions` on two identical lines.  The `seen` set
was meant to collapse them (the source comments the set with `# Deduplicate`
and keys it by lower-cased stripped text), but the membership test uses the
original-cased text, so the duplicate is returned twice. -/
theorem claim3_duplicate_not_collapsed :
    parse_questions ("What is the budget?\nWhat is the budget?".toList) =
      ["What is the budget?".toList, "What is the budget?".toList] := by
  decide

/-!
## C10 — parser output invariants
-/

/-- A valid question has at least ten characters. -/
theorem is_valid_question_length (q : PyStr) (h : is_valid_question q = true) :
    10 ≤ q.length := by
  unfold is_valid_question at h
  by_cases h1 : (q = [] || decide (q.length < 10)) = true
  · rw [if_pos h1] at h
    exact absurd h (by simp)
  · simp only [Bool.or_eq_true, decide_eq_true_eq] at h1
    omega

/-- The flush step of strategy 1 only ever appends valid questions. -/
theorem flushCurrent_valid (st : ParseState)
    (h : ∀ q ∈ st.questions, is_valid_question q = true) :
    ∀ q ∈ (flushCurrent st).questions, is_valid_question q = true := by
  unfold flushCurrent
  split
  · exact h
  · dsimp only
    split
    next hcond =>
      intro q hqm
      rcases List.mem_append.mp hqm with hm | hm
      · exact h q hm
      · rw [List.mem_singleton] at hm
        subst hm
        simp only [Bool.and_eq_true] at hcond
        exact hcond.2
    next => exact h

/-- Strategy 1 preserves validity of the collected questions line by line. -/
theorem processLine_valid (st : ParseState) (line : PyStr)
    (h : ∀ q ∈ st.questions, is_valid_question q = true) :
    ∀ q ∈ (processLine st line).questions, is_valid_question q = true := by
  unfold processLine
  dsimp only
  repeat' split
  all_goals
    first
      | exact flushCurrent_valid st h
      | exact h

/-- Folding strategy 1 over all lines preserves validity. -/
theorem foldl_processLine_valid (lines : List PyStr) :
    ∀ st : ParseState, (∀ q ∈ st.questions, is_valid_question q = true) →
      ∀ q ∈ (lines.foldl processLine st).questions, is_valid_question q = true := by
  induction lines with
  | nil => exact fun st h => h
  | cons l rest ih => exact fun st h => ih (processLine st l) (processLine_valid st l h)

/-- The conditional append of strategies 2 and 3 preserves validity. -/
theorem addIfValid_valid (qs seen : List PyStr) (cand : PyStr)
    (h : ∀ q ∈ qs, is_valid_question q = true) :
    ∀ q ∈ (addIfValid qs seen cand).1, is_valid_question q = true := by
  unfold addIfValid
  split
  next hcond =>
    intro q hqm
    rcases List.mem_append.mp hqm with hm | hm
    · exact h q hm
    · rw [List.mem_singleton] at hm
      subst hm
      simp only [Bool.and_eq_true] at hcond
      exact hcond.2
  next => exact h

/-- The strategy 3 loop preserves validity. -/
theorem strat3Loop_valid (pieces : List PyStr) :
    ∀ (qs seen cur : List PyStr), (∀ q ∈ qs, is_valid_question q = true) →
      ∀ q ∈ (strat3Loop pieces qs seen cur).1, is_valid_question q = true := by
  induction pieces with
  | nil => exact fun qs seen cur h => h
  | cons piece rest ih =>
    intro qs seen cur h
    unfold strat3Loop
    dsimp only
    split
    · exact ih qs seen cur h
    · split
      · exact ih _ _ _ (addIfValid_valid qs seen _ h)
      · exact ih qs seen _ h

/-- Strategy 3 preserves validity, final flush included. -/
theorem strat3_valid (normalized : PyStr) (qs seen : List PyStr)
    (h : ∀ q ∈ qs, is_valid_question q = true) :
    ∀ q ∈ (strat3 normalized qs seen).1, is_valid_question q = true := by
  unfold strat3
  have hloop := strat3Loop_valid (splitSentences normalized) qs seen [] h
  dsimp only
  split
  · split
    next hcond =>
      intro q hqm
      rcases List.mem_append.mp hqm with hm | hm
      · exact hloop q hm
      · rw [List.mem_singleton] at hm
        subst hm
        simp only [Bool.and_eq_true] at hcond
        exact hcond.2
    next => exact hloop
  · exact hloop

/-- Folding the strategy-2 append over the blank-line blocks preserves
validity. -/
theorem foldl_addIfValid_valid (segs : List PyStr) (g : PyStr → PyStr) :
    ∀ p : List PyStr × List PyStr, (∀ q ∈ p.1, is_valid_question q = true) →
      ∀ q ∈ (segs.foldl (fun r seg => addIfValid r.1 r.2 (g seg)) p).1,
        is_valid_question q = true := by
  induction segs with
  | nil => exact fun p h => h
  | cons s rest ih => exact fun p h => ih _ (addIfValid_valid p.1 p.2 (g s) h)

/-- Strategy 1 collects only valid questions. -/
theorem strat1Result_valid (normalized : PyStr) :
    ∀ q ∈ (strat1Result normalized).1, is_valid_question q = true :=
  flushCurrent_valid _ (foldl_processLine_valid (pySplitNl normalized) ⟨[], [], []⟩
    (by simp))

/-- Strategy 2 preserves validity. -/
theorem strat2Result_valid (normalized : PyStr) (p : List PyStr × List PyStr)
    (h : ∀ q ∈ p.1, is_valid_question q = true) :
    ∀ q ∈ (strat2Result normalized p).1, is_valid_question q = true := by
  unfold strat2Result
  split
  · exact foldl_addIfValid_valid (splitBlankLines normalized) _ p h
  · exact h

/-- The final fallback preserves validity. -/
theorem strat4Result_valid (normalized : PyStr) (qs : List PyStr)
    (h : ∀ q ∈ qs, is_valid_question q = true) :
    ∀ q ∈ strat4Result normalized qs, is_valid_question q = true := by
  unfold strat4Result
  split
  · split
    next hcond =>
      intro q hqm
      rw [List.mem_singleton] at hqm
      subst hqm
      simp only [Bool.and_eq_true] at hcond
      exact hcond.2
    next =>
      intro q hqm
      simp at hqm
  · exact h

/-- Every question surviving to the final-cleanup pass is valid. -/
theorem parseStrategies_valid (normalized : PyStr) :
    ∀ q ∈ parseStrategies normalized, is_valid_question q = true := by
  have h2 := strat2Result_valid normalized _ (strat1Result_valid normalized)
  have h3 : ∀ q ∈ (if (strat2Result normalized (strat1Result normalized)).1 = [] then
      strat3 normalized (strat2Result normalized (strat1Result normalized)).1
        (strat2Result normalized (strat1Result normalized)).2
      else strat2Result normalized (strat1Result normalized)).1,
      is_valid_question q = true := by
    split
    · exact strat3_valid normalized _ _ h2
    · exact h2
  exact strat4Result_valid normalized _ h3

/-- The first character of a capitalised string is never a lower-case
letter. -/
theorem capitalizeFirst_head (x : PyStr) (c : Char) (t : PyStr)
    (h : capitalizeFirst x = c :: t) : pyIsAsciiLower c = false := by
  cases x with
  | nil => simp [capitalizeFirst] at h
  | cons c0 t0 =>
    simp only [capitalizeFirst] at h
    by_cases h0 : pyIsAsciiLower c0 = true
    · rw [if_pos h0] at h
      injection h with hc _
      rw [← hc]
      exact pyUpperChar_not_lower c0
    · rw [if_neg h0] at h
      injection h with hc _
      rw [← hc]
      simpa using h0

/-- The first character of a cleaned question is never a lower-case
letter. -/
theorem clean_question_head (s : PyStr) (c : Char) (t : PyStr)
    (h : clean_question s = c :: t) : pyIsAsciiLower c = false := by
  unfold clean_question at h
  split at h
  · simp at h
  · exact capitalizeFirst_head _ _ _ h

/-- Right-stripping only removes a suffix. -/
theorem rstripWs_prefix (q : PyStr) : ∃ w, q = rstripWs q ++ w := by
  refine ⟨(q.reverse.takeWhile pyIsWs).reverse, ?_⟩
  unfold rstripWs lstripWs
  rw [← List.reverse_append, List.takeWhile_append_dropWhile, List.reverse_reverse]

/-- The first character of a finalised question is never a lower-case
letter. -/
theorem finalizeQuestion_head (q0 : PyStr) (c : Char) (t : PyStr)
    (h : finalizeQuestion q0 = c :: t) : pyIsAsciiLower c = false := by
  have hbranch : (∃ t', rstripWs (clean_question q0) ++ ['?'] = c :: t') ∨
      (∃ t', rstripWs (clean_question q0) ++ ['.'] = c :: t') ∨
      clean_question q0 = c :: t := by
    unfold finalizeQuestion at h
    dsimp only at h
    split at h
    · split at h
      · exact Or.inl ⟨t, h⟩
      · exact Or.inr (Or.inl ⟨t, h⟩)
    · exact Or.inr (Or.inr h)
  have hsolve : ∀ (p : Char), pyIsAsciiLower p = false →
      (∃ t', rstripWs (clean_question q0) ++ [p] = c :: t') →
      pyIsAsciiLower c = false := by
    intro p hp ⟨t', ht'⟩
    cases hr : rstripWs (clean_question q0) with
    | nil =>
      rw [hr] at ht'
      injection ht' with hc _
      rw [← hc]
      exact hp
    | cons c0 t0 =>
      rw [hr] at ht'
      injection ht' with hc _
      rw [← hc]
      obtain ⟨w, hw⟩ := rstripWs_prefix (clean_question q0)
      rw [hr] at hw
      exact clean_question_head q0 c0 (t0 ++ w) (by simpa using hw)
  rcases hbranch with hb | hb | hb
  · exact hsolve '?' (by decide) hb
  · exact hsolve '.' (by decide) hb
  · exact clean_question_head q0 c t hb

/-- C10 (amended): every string returned by `parse_questions` never starts
with a lower-case ASCII letter, and every returned string is the
final-cleanup image of a candidate that passed the ten-character validity
filter; the ten-character bound on the *returned* string itself fails (see
the counterexample), because the final re-cleaning pass can shorten the
text. -/
theorem claim10_parse_invariants (raw : PyStr) :
    (∀ q ∈ parse_questions raw, ∀ c t, q = c :: t → pyIsAsciiLower c = false) ∧
    (∃ qs0 : List PyStr, parse_questions raw = List.map finalizeQuestion qs0 ∧
      ∀ q ∈ qs0, is_valid_question q = true ∧ 10 ≤ q.length) := by
  constructor
  · intro q hq c t hct
    unfold parse_questions at hq
    split at hq
    · simp at hq
    · obtain ⟨q0, _, hmap⟩ := List.mem_map.mp hq
      exact finalizeQuestion_head q0 c t (by rw [hmap, hct])
  · unfold parse_questions
    split
    · exact ⟨[], by simp, by simp⟩
    · refine ⟨parseStrategies _, rfl, fun q hq => ?_⟩
      have hv := parseStrategies_valid _ q hq
      exact ⟨hv, is_valid_question_length q hv⟩

/-- Witness for C10 (amended) on the input `": - aaaaaaa?"`: the single
returned question starts with the capital letter `A`. -/
theorem claim10_witness :
    pyIsAsciiLower 'A' = false ∧
    ∃ qs0 : List PyStr,
      parse_questions (": - aaaaaaa?".toList) = List.map finalizeQuestion qs0 ∧
      ∀ q ∈ qs0, is_valid_question q = true ∧ 10 ≤ q.length :=
  ⟨(claim10_parse_invariants (": - aaaaaaa?".toList)).1 ("Aaaaaaa?".toList)
      (by decide) 'A' ("aaaaaa?".toList) (by decide),
   (claim10_parse_invariants (": - aaaaaaa?".toList)).2⟩

/-- Counterexample to C10 as stated: the input `": - aaaaaaa?"` produces the
eight-character question `"Aaaaaaa?"` — shorter than ten characters — because
the final cleanup re-cleans the stored candidate `"- aaaaaaa?"` (valid, ten
characters) and strips its leading dash again. -/
theorem claim10_counterexample :
    parse_questions (": - aaaaaaa?".toList) = ["Aaaaaaa?".toList] ∧
    ("Aaaaaaa?".toList).length < 10 := by
  constructor
  · decide
  · decide

/-!
## C6 — search ranking
-/

/-- The descending comparison on scored chunks is transitive. -/
theorem scoreDesc_trans (a b c : ℚ × Chunk) (h1 : scoreDesc a b = true)
    (h2 : scoreDesc b c = true) : scoreDesc a c = true := by
  simp only [scoreDesc, decide_eq_true_eq] at h1 h2 ⊢
  exact le_trans h2 h1

/-- The descending comparison on scored chunks is total. -/
theorem scoreDesc_total (a b : ℚ × Chunk) : (scoreDesc a b || scoreDesc b a) = true := by
  simp only [scoreDesc, Bool.or_eq_true, decide_eq_true_eq]
  exact le_total b.1 a.1

/-- Sorting with `scoreDesc` yields a list whose scores are non-increasing. -/
theorem mergeSort_scoreDesc_pairwise (l : List (ℚ × Chunk)) :
    (l.mergeSort scoreDesc).Pairwise (fun a b => b.1 ≤ a.1) := by
  have h := @List.sorted_mergeSort _ scoreDesc
    (fun a b c => scoreDesc_trans a b c) (fun a b => scoreDesc_total a b) l
  exact h.imp (fun hab => by simpa [scoreDesc] using hab)

/-- C6: both search paths return at most `top_k` chunks, in non-increasing
order of boosted score, and every returned chunk has a strictly positive
score (the keyword path needs the chunks' priorities to be non-negative,
which all folder priorities are). -/
theorem claim6_search_ranking (sims : List ℚ) (chunks : List Chunk) (top_k : Nat)
    (query : PyStr) (hpr : ∀ c ∈ chunks, 0 ≤ c.priority) :
    (VectorSearcher_search sims chunks top_k).length ≤ top_k ∧
    (search_scored sims chunks top_k).Pairwise (fun a b => b.1 ≤ a.1) ∧
    (∀ p ∈ search_scored sims chunks top_k, 0 < p.1) ∧
    (VectorSearcher_keyword_fallback query chunks top_k).length ≤ top_k ∧
    (keyword_fallback_scored query chunks top_k).Pairwise (fun a b => b.1 ≤ a.1) ∧
    (∀ p ∈ keyword_fallback_scored query chunks top_k, 0 < p.1) := by
  refine ⟨?_, ?_, ?_, ?_, ?_, ?_⟩
  · unfold VectorSearcher_search search_scored
    rw [List.length_map]
    refine le_trans (List.length_filter_le _ _) ?_
    rw [List.length_take]
    omega
  · unfold search_scored
    exact List.Pairwise.sublist
      ((List.filter_sublist _).trans (List.take_sublist _ _))
      (mergeSort_scoreDesc_pairwise _)
  · unfold search_scored
    intro p hp
    have := List.of_mem_filter hp
    simpa using this
  · unfold VectorSearcher_keyword_fallback keyword_fallback_scored
    rw [List.length_map, List.length_take]
    omega
  · unfold keyword_fallback_scored
    exact List.Pairwise.sublist (List.take_sublist _ _) (mergeSort_scoreDesc_pairwise _)
  · unfold keyword_fallback_scored
    intro p hp
    have hp1 : p ∈ (keyword_scored query chunks).mergeSort scoreDesc :=
      (List.take_sublist _ _).mem hp
    have hp2 : p ∈ keyword_scored query chunks :=
      (List.mergeSort_perm _ _).mem_iff.mp hp1
    unfold keyword_scored at hp2
    obtain ⟨c, hc, hfc⟩ := List.mem_filterMap.mp hp2
    by_cases hov : 0 <
        (((pySplitWs (pyLower c.content)).eraseDups).filter
          (fun w => ((pySplitWs (pyLower query)).eraseDups).contains w)).length
    · rw [if_pos hov] at hfc
      have hp3 := (Option.some_inj.mp hfc)
      have hpos : (0 : ℚ) <
          ((((pySplitWs (pyLower c.content)).eraseDups).filter
            (fun w => ((pySplitWs (pyLower query)).eraseDups).contains w)).length : ℚ) := by
        exact_mod_cast hov
      have hfac : (0 : ℚ) < 1 + c.priority * (1 / 5) := by
        have := hpr c hc
        nlinarith
      rw [← hp3]
      exact mul_pos hpos hfac
    · rw [if_neg hov] at hfc
      exact absurd hfc (by simp)

/-- Witness for C6 on a one-chunk index. -/
theorem claim6_witness :
    (VectorSearcher_search [1] [sampleChunk] 10).length ≤ 10 ∧
    (search_scored [1] [sampleChunk] 10).Pairwise (fun a b => b.1 ≤ a.1) ∧
    (∀ p ∈ search_scored [1] [sampleChunk] 10, 0 < p.1) ∧
    (VectorSearcher_keyword_fallback ("PHC participants".toList) [sampleChunk] 10).length ≤ 10 ∧
    (keyword_fallback_scored ("PHC participants".toList) [sampleChunk] 10).Pairwise
      (fun a b => b.1 ≤ a.1) ∧
    (∀ p ∈ keyword_fallback_scored ("PHC participants".toList) [sampleChunk] 10, 0 < p.1) :=
  claim6_search_ranking [1] [sampleChunk] 10 ("PHC participants".toList)
    (by intro c hc; rw [List.mem_singleton] at hc; subst hc; norm_num [sampleChunk])

/-!
## C9 — embedding count
-/

/-- A batch's contribution has exactly one vector per chunk whenever the
response is well counted (the fallback path always does). -/
theorem batchContribution_length (embedOne : PyStr → IndResp) (batch : List Chunk)
    (resp : BatchResp) (h : respWellCounted resp batch.length) :
    (batchContribution embedOne batch resp).length = batch.length := by
  cases resp with
  | raiseExc m => simp [batchContribution]
  | dictEmbNonList => simp [batchContribution]
  | otherResp => simp [batchContribution]
  | listResp items =>
    simp only [batchContribution, List.length_map]
    exact h
  | dictEmb items =>
    cases items with
    | nil => simp [batchContribution]
    | cons hd rest =>
      cases hd with
      | vec v =>
        simp only [batchContribution, List.length_map]
        exact h
      | num q =>
        simp only [batchContribution, List.length_singleton]
        exact (h : batch.length = 1).symm

/-- C9 (amended): with no cache hit, the index ends with exactly one vector
per chunk provided every batch response is well counted — in particular
whenever every batch call fails and the per-chunk fallback runs.  A
well-shaped response carrying the wrong number of embeddings breaks the
count (see the counterexample). -/
theorem claim9_embedding_count (batchCall : List PyStr → BatchResp)
    (embedOne : PyStr → IndResp) (chunks : List Chunk)
    (h : ∀ b ∈ batchesOf100 chunks,
      respWellCounted (batchCall (b.map Chunk.content)) b.length) :
    (compute_embeddings none batchCall embedOne chunks).length = chunks.length := by
  unfold compute_embeddings batchesOf100
  unfold batchesOf100 at h
  suffices haux : ∀ n (cs : List Chunk), cs.length ≤ n →
      (∀ b ∈ batchesAux n cs, respWellCounted (batchCall (b.map Chunk.content)) b.length) →
      ((batchesAux n cs).flatMap
        (fun b => batchContribution embedOne b (batchCall (b.map Chunk.content)))).length =
        cs.length by
    exact haux chunks.length chunks le_rfl h
  intro n
  induction n with
  | zero =>
    intro cs hlen _
    cases cs with
    | nil => simp [batchesAux]
    | cons c t => simp at hlen
  | succ n ih =>
    intro cs hlen hwc
    cases cs with
    | nil => simp [batchesAux]
    | cons c t =>
      rw [show batchesAux (n + 1) (c :: t) =
          ((c :: t).take 100) :: batchesAux n ((c :: t).drop 100) from rfl] at hwc ⊢
      rw [List.flatMap_cons, List.length_append]
      have h1 := batchContribution_length embedOne ((c :: t).take 100)
        (batchCall (((c :: t).take 100).map Chunk.content))
        (hwc _ (List.mem_cons_self _ _))
      have hlen' : ((c :: t).drop 100).length ≤ n := by
        simp only [List.length_drop, List.length_cons]
        simp only [List.length_cons] at hlen
        omega
      have h2 := ih ((c :: t).drop 100) hlen'
        (fun b hb => hwc b (List.mem_cons_of_mem _ hb))
      rw [h1, h2, List.length_take, List.length_drop]
      simp only [List.length_cons]
      omega

/-- Witness for C9 (amended): two chunks, every batch call raising — the
fallback yields exactly two (zero) vectors. -/
theorem claim9_witness :
    (compute_embeddings none (fun _ => BatchResp.raiseExc ("quota".toList)) failEmbedOne
      [chunkA, chunkB]).length = [chunkA, chunkB].length :=
  claim9_embedding_count (fun _ => BatchResp.raiseExc ("quota".toList)) failEmbedOne
    [chunkA, chunkB] (fun _ _ => trivial)

/-- Counterexample to C9 as stated: a batch response of the flat
single-embedding shape (`{'embedding': [0.1, 0.2]}`) for a two-chunk batch is
handled without error but contributes a single vector, leaving the index with
fewer vectors than chunks. -/
theorem claim9_counterexample :
    (compute_embeddings none flatRespCall failEmbedOne [chunkA, chunkB]).length = 1 ∧
    [chunkA, chunkB].length = 2 := by
  constructor
  · decide
  · decide

/-!
## C2 — failure containment in `QAEngine.answer_batch`
-/

/-- The shared failure-shape fact: whenever the generation call raises, or
every string fed to `json.loads` fails to parse, the extraction step returns
the fully-shaped per-question error result — every requested question mapped
to an `Error`-prefixed string, with the tailoring/fit fields present and
defaulted when sponsor context was supplied.  (The Lean model is a total
function, mirroring that the Python function can only ever return: its outer
`except Exception` handler absorbs every exception of the body.) -/
theorem qaExtract_failure_shape (jp : PyStr → Option JValue) (gen : GenOutcome)
    (qs : List PyStr) (ctx : PyStr)
    (h : (∃ e, gen = GenOutcome.raiseExc e) ∨
         (∃ t, gen = GenOutcome.ok t ∧ ∀ s, jp s = none)) :
    ∃ m tl fe : PyStr, List.isPrefixOf ("Error".toList) m = true ∧
      QAEngine_extract jp gen qs ctx =
        (if includeTailoring ctx then
          JValue.obj
            [("answers".toList, JValue.obj (pyDictOfKeys qs (.str m))),
             ("tailoring_explanation".toList, .str tl),
             ("fit_score".toList, .num 0),
             ("fit_explanation".toList, .str fe)]
         else JValue.obj (pyDictOfKeys qs (.str m))) := by
  have herrPrefix : ∀ e : PyStr,
      List.isPrefixOf ("Error".toList) ("Error: ".toList ++ e) = true := by
    intro e
    rw [List.isPrefixOf_iff_prefix]
    exact (by decide : ("Error".toList) <+: ("Error: ".toList)).trans
      (List.prefix_append _ _)
  have hhandler : ∀ e : PyStr,
      ∃ m tl fe : PyStr, List.isPrefixOf ("Error".toList) m = true ∧
        qaExceptHandler (includeTailoring ctx) qs e =
          (if includeTailoring ctx then
            JValue.obj
              [("answers".toList, JValue.obj (pyDictOfKeys qs (.str m))),
               ("tailoring_explanation".toList, .str tl),
               ("fit_score".toList, .num 0),
               ("fit_explanation".toList, .str fe)]
           else JValue.obj (pyDictOfKeys qs (.str m))) := by
    intro e
    unfold qaExceptHandler
    by_cases hql : quotaLike e = true
    · refine ⟨"Error: API quota exceeded".toList,
        "Unable to generate tailoring explanation due to API error.".toList,
        "Unable to generate fit analysis due to API error.".toList, by decide, ?_⟩
      by_cases hinc : includeTailoring ctx = true
      · rw [if_pos hinc, if_pos hql, if_pos hinc]
      · rw [if_neg hinc, if_neg hinc, if_pos hql]
    · refine ⟨"Error: ".toList ++ e,
        "Unable to generate tailoring explanation due to error.".toList,
        "Unable to generate fit analysis due to error.".toList, herrPrefix e, ?_⟩
      by_cases hinc : includeTailoring ctx = true
      · rw [if_pos hinc, if_neg hql, if_pos hinc]
      · rw [if_neg hinc, if_neg hinc, if_neg hql]
  rcases h with ⟨e, rfl⟩ | ⟨t, rfl, hjp⟩
  · exact hhandler e
  · have hbody : qaTryBody jp (GenOutcome.ok t) qs (includeTailoring ctx) =
        .ok (lastResortResult (includeTailoring ctx) qs) ∨
        qaTryBody jp (GenOutcome.ok t) qs (includeTailoring ctx) =
        .error jsonDecodeErrMsg := by
      unfold qaTryBody
      simp only [hjp, ite_self]
      repeat' split
      all_goals first
        | exact Or.inl rfl
        | exact Or.inr rfl
    have hextract : ∀ r, qaTryBody jp (GenOutcome.ok t) qs (includeTailoring ctx) = r →
        QAEngine_extract jp (GenOutcome.ok t) qs ctx =
          (match r with
           | .ok v => v
           | .error e => qaExceptHandler (includeTailoring ctx) qs e) := by
      intro r hr
      unfold QAEngine_extract
      dsimp only
      rw [hr]
    rcases hbody with hb | hb
    · rw [hextract _ hb]
      refine ⟨errCouldNotParse,
        "Unable to generate tailoring explanation due to parsing error.".toList,
        "Unable to generate fit analysis due to parsing error.".toList, by decide, ?_⟩
      show lastResortResult (includeTailoring ctx) qs = _
      unfold lastResortResult
      by_cases hinc : includeTailoring ctx = true
      · rw [if_pos hinc]
      · rw [if_neg hinc]
    · rw [hextract _ hb]
      show ∃ m tl fe : PyStr, _ ∧ qaExceptHandler (includeTailoring ctx) qs jsonDecodeErrMsg = _
      exact hhandler jsonDecodeErrMsg

/-- C2 (amended): `QAEngine.answer_batch` never propagates an exception (the
model of its post-generation phase is a total function whose outer handler
absorbs every body exception), and for every generation-backend failure and
for every response on which `json.loads` always fails — including failure of
the fenced-block extraction — it returns a fully-shaped result in which every
requested question maps to an `Error`-prefixed explanatory string, with
tailoring explanation, fit score 0 and fit explanation present when sponsor
context was supplied.  A response whose fenced block *does* parse is instead
returned in shaped form with the recovered answers (see the
counterexample). -/
theorem claim2_failure_containment (jp : PyStr → Option JValue) (gen : GenOutcome)
    (qs : List PyStr) (ctx : PyStr)
    (h : (∃ e, gen = GenOutcome.raiseExc e) ∨
         (∃ t, gen = GenOutcome.ok t ∧ ∀ s, jp s = none)) :
    ∃ m tl fe : PyStr, List.isPrefixOf ("Error".toList) m = true ∧
      QAEngine_extract jp gen qs ctx =
        (if includeTailoring ctx then
          JValue.obj
            [("answers".toList, JValue.obj (pyDictOfKeys qs (.str m))),
             ("tailoring_explanation".toList, .str tl),
             ("fit_score".toList, .num 0),
             ("fit_explanation".toList, .str fe)]
         else JValue.obj (pyDictOfKeys qs (.str m))) :=
  qaExtract_failure_shape jp gen qs ctx h

/-- Witness for C2 (amended): a fully garbled reply with no sponsor
context. -/
theorem claim2_witness :
    ∃ m tl fe : PyStr, List.isPrefixOf ("Error".toList) m = true ∧
      QAEngine_extract (fun _ => none) (GenOutcome.ok ("garbled output".toList))
        [sampleQuestion] [] =
        (if includeTailoring [] then
          JValue.obj
            [("answers".toList, JValue.obj (pyDictOfKeys [sampleQuestion] (.str m))),
             ("tailoring_explanation".toList, .str tl),
             ("fit_score".toList, .num 0),
             ("fit_explanation".toList, .str fe)]
         else JValue.obj (pyDictOfKeys [sampleQuestion] (.str m))) :=
  claim2_failure_containment (fun _ => none) (GenOutcome.ok ("garbled output".toList))
    [sampleQuestion] [] (Or.inr ⟨_, rfl, fun _ => rfl⟩)

/-- Counterexample to C2 as stated: the reply carries valid JSON fenced in a
```json code block — the reply as a whole is unparseable, yet the extractor
recovers the fenced object and returns it, so the requested question is *not*
mapped to an explanatory error string (it is not mapped at all). -/
theorem claim2_counterexample :
    QAEngine_extract fencedParser (GenOutcome.ok fencedReply) [sampleQuestion] [] =
      JValue.obj [("Q".toList, JValue.str ("A".toList))] ∧
    jLookup [("Q".toList, JValue.str ("A".toList))] sampleQuestion = none := by
  constructor
  · rfl
  · rfl

/-!
## C8 — prompt shrinking and sponsor-context preservation
-/

/-- The quantitative-first rearrangement is a permutation in length. -/
theorem quantFirst_length (chunks : List Chunk) :
    (quantFirst chunks).length = chunks.length := by
  unfold quantFirst
  have hcongr : chunks.filter (fun c => decide (c.priority < 4)) =
      chunks.filter (fun c => !decide (4 ≤ c.priority)) := by
    apply List.filter_congr
    intro c _
    by_cases h : (4 : ℚ) ≤ c.priority
    · simp [h, not_lt.mpr h]
    · simp [h, lt_of_not_le h]
  rw [hcongr]
  exact (List.filter_append_perm _ chunks).length_eq

/-- The shrink loop only ever removes elements one at a time from the end of
its input — its result is a prefix `take (n - k)` with `k` at most the fuel —
and never goes below the ten-chunk floor (when the input starts above it). -/
theorem shrinkLoop_spec (tpl : PromptTemplate) (quickRef : PyStr → PyStr)
    (qs : List PyStr) (ctx : PyStr) (inc : Bool) :
    ∀ (fuel : Nat) (reduced : List Chunk),
      ∃ k, k ≤ fuel ∧
        shrinkLoop tpl quickRef qs ctx inc fuel reduced =
          reduced.take (reduced.length - k) ∧
        min reduced.length 10 ≤ reduced.length - k := by
  intro fuel
  induction fuel with
  | zero =>
    intro reduced
    refine ⟨0, le_refl 0, ?_, ?_⟩
    · simp [shrinkLoop]
    · omega
  | succ n ih =>
    intro reduced
    unfold shrinkLoop
    by_cases h1 : decide (max_context_tokens <
        count_tokens (build_prompt tpl quickRef qs reduced ctx inc)) = true
    · rw [if_pos h1]
      by_cases h2 : decide (reduced.length ≤ 10) = true
      · rw [if_pos h2]
        exact ⟨0, Nat.zero_le _, by simp, by omega⟩
      · rw [if_neg h2]
        have hgt : 10 < reduced.length := by
          simpa using h2
        obtain ⟨k', hk', heq, hmin⟩ := ih reduced.dropLast
        refine ⟨k' + 1, by omega, ?_, ?_⟩
        · rw [heq, List.dropLast_eq_take, List.take_take, List.length_take]
          congr 1
          omega
        · rw [List.length_dropLast] at hmin
          omega
    · rw [if_neg h1]
      exact ⟨0, Nat.zero_le _, by simp, by omega⟩

/-- The cleaned sponsor context is embedded verbatim in every built
prompt. -/
theorem build_prompt_contains_context (tpl : PromptTemplate)
    (quickRef : PyStr → PyStr) (qs : List PyStr) (chunks : List Chunk)
    (ctx : PyStr) (inc : Bool) (h : pyStrip ctx ≠ []) :
    ∃ u v : PyStr, build_prompt tpl quickRef qs chunks ctx inc =
      u ++ pyStrip ctx ++ v := by
  have hne : ctx ≠ [] := by
    intro hc
    rw [hc] at h
    exact h rfl
  unfold build_prompt
  dsimp only
  exact ⟨tpl.p1 ++ tpl.p1ctx ++ tpl.p2 ++ tpl.acsHead ++ quickRef (pyStrip ctx) ++
      tpl.acsMid,
    tpl.acsTail ++ tpl.p3 ++ tpl.p3ctx ++ tpl.p4 ++
      pyJoin ("\n\n---\n\n".toList) ((prioritizedChunks chunks).map contextSection) ++
      tpl.p5 ++ pyJoin ['\n'] (qs.map (fun q => '-' :: ' ' :: q)) ++ tpl.p6 ++
      (if inc then tpl.fmtTailored else tpl.fmtPlain) ++ tpl.p7 ++ tpl.p8ctx ++
      tpl.p9 ++ tpl.p9ctx ++ tpl.p10 ++ tpl.p10ctx ++ tpl.p11,
    by simp [List.append_assoc, hne, h]⟩

/-- C8: when the prompt is over budget, shrinking rearranges quantitative
chunks first and then removes chunks only from the (lower-priority) end, one
per attempt for at most 50 attempts, stopping at the ten-chunk floor whether
or not the budget was met; and the cleaned sponsor-context string always
appears in the final prompt in full, untouched by shrinking. -/
theorem claim8_shrink_and_context (tpl : PromptTemplate)
    (quickRef : PyStr → PyStr) (qs : List PyStr) (chunks : List Chunk)
    (ctx : PyStr) (h : pyStrip ctx ≠ []) :
    (∃ u v : PyStr, (QAEngine_prepare_prompt tpl quickRef qs chunks ctx).1 =
      u ++ pyStrip ctx ++ v) ∧
    ((QAEngine_prepare_prompt tpl quickRef qs chunks ctx).2 = chunks ∨
      ∃ k, k ≤ 50 ∧
        (QAEngine_prepare_prompt tpl quickRef qs chunks ctx).2 =
          (quantFirst chunks).take (chunks.length - k) ∧
        min chunks.length 10 ≤ chunks.length - k) := by
  unfold QAEngine_prepare_prompt
  dsimp only
  by_cases h1 : decide (max_context_tokens <
      count_tokens (build_prompt tpl quickRef qs chunks ctx (includeTailoring ctx))) = true
  · rw [if_pos h1]
    obtain ⟨k, hk, heq, hmin⟩ :=
      shrinkLoop_spec tpl quickRef qs ctx (includeTailoring ctx) 50 (quantFirst chunks)
    rw [quantFirst_length] at heq hmin
    refine ⟨build_prompt_contains_context tpl quickRef qs _ ctx _ h, Or.inr ⟨k, hk, heq, hmin⟩⟩
  · rw [if_neg h1]
    exact ⟨build_prompt_contains_context tpl quickRef qs chunks ctx _ h, Or.inl rfl⟩

/-- Witness for C8 on a concrete sponsor context and empty chunk pool. -/
theorem claim8_witness :
    (∃ u v : PyStr,
      (QAEngine_prepare_prompt emptyTemplate noQuickRef [sampleQuestion] []
        ("Sponsor focuses on health equity".toList)).1 =
      u ++ pyStrip ("Sponsor focuses on health equity".toList) ++ v) ∧
    ((QAEngine_prepare_prompt emptyTemplate noQuickRef [sampleQuestion] []
        ("Sponsor focuses on health equity".toList)).2 = [] ∨
      ∃ k, k ≤ 50 ∧
        (QAEngine_prepare_prompt emptyTemplate noQuickRef [sampleQuestion] []
          ("Sponsor focuses on health equity".toList)).2 =
          (quantFirst []).take (([] : List Chunk).length - k) ∧
        min ([] : List Chunk).length 10 ≤ ([] : List Chunk).length - k) :=
  claim8_shrink_and_context emptyTemplate noQuickRef [sampleQuestion] []
    ("Sponsor focuses on health equity".toList) (by decide)

/-- Folding a state-preserving function changes nothing. -/
theorem foldl_const_state {β : Type} (l : List β) (s : RetrievalState) :
    List.foldl (fun s _ => s) s l = s := by
  induction l generalizing s with
  | nil => rfl
  | cons x t ih =>
    rw [List.foldl_cons]
    exact ih s

/-- When every search comes back empty, the retrieval phase pools no chunks
and leaves the per-question attribution map in its initial state. -/
theorem retrieve_empty (search : PyStr → Nat → List Chunk) (qs : List PyStr)
    (top_k : Nat) (hs : ∀ q k, search q k = []) :
    retrieve search qs top_k = ⟨[], [], qcInit qs⟩ := by
  unfold retrieve
  dsimp only
  by_cases h3 : decide (3 < qs.length) = true
  · rw [if_pos h3]
    simp only [hs, List.foldl_nil]
    exact foldl_const_state _ _
  · rw [if_neg h3]
    simp only [hs, List.foldl_nil]
    exact foldl_const_state _ _

/-- A constant-valued dict comprehension over keys not containing
`'answers'` has no `'answers'` key. -/
theorem pyDict_no_answers (qs : List PyStr) (v : JValue)
    (hans : ("answers".toList) ∉ qs) :
    (jKeys (pyDictOfKeys qs v)).contains ("answers".toList) = false := by
  rw [Bool.eq_false_iff]
  intro hc
  exact hans (((jKeys_pyDictOfKeys qs v).2 ("answers".toList)).mp (List.elem_iff.mp hc))

/-- Extracting the answers map from the no-retrieval result always yields
the constant no-information dict over the questions. -/
theorem noRetrieval_extract (qs : List PyStr) (ctx : PyStr) (rs : Bool)
    (hans : ("answers".toList) ∉ qs) :
    extractAnswersMap (noRetrievalResult qs ctx rs) =
      JValue.obj (pyDictOfKeys qs (JValue.str noInfoMsg)) := by
  cases rs with
  | true =>
    unfold noRetrievalResult
    rw [if_pos rfl]
    dsimp only
    by_cases hinc : includeTailoring ctx = true
    · rw [if_pos hinc]
      rfl
    · rw [if_neg hinc]
      rfl
  | false =>
    unfold noRetrievalResult
    rw [if_neg (by simp)]
    unfold extractAnswersMap
    dsimp only
    rw [pyDict_no_answers qs _ hans]
    simp

/-- C7: if every search of the batch comes back empty, the orchestrator
short-circuits: it returns the fixed no-retrieval result, its output does not
depend on the parser or the generation backend at all, the extracted answers
map sends every question to the fixed no-information string, and (when
sources were requested) the result carries a sources dict sending every
question to an empty list. -/
theorem claim7_no_retrieval_short_circuit (tpl : PromptTemplate)
    (quickRef : PyStr → PyStr) (jp : PyStr → Option JValue)
    (genF : PyStr → GenOutcome) (search : PyStr → Nat → List Chunk)
    (qs : List PyStr) (top_k : Nat) (ctx : PyStr) (rs : Bool)
    (hs : ∀ q k, search q k = [])
    (hans : ("answers".toList) ∉ qs) :
    PHC_answer_batch tpl quickRef jp genF search qs top_k ctx rs =
      Except.ok (noRetrievalResult qs ctx rs) ∧
    (∀ (jp2 : PyStr → Option JValue) (genF2 : PyStr → GenOutcome),
      PHC_answer_batch tpl quickRef jp genF search qs top_k ctx rs =
        PHC_answer_batch tpl quickRef jp2 genF2 search qs top_k ctx rs) ∧
    extractAnswersMap (noRetrievalResult qs ctx rs) =
      JValue.obj (pyDictOfKeys qs (JValue.str noInfoMsg)) ∧
    (∀ q ∈ qs, jLookup (pyDictOfKeys qs (JValue.str noInfoMsg)) q =
      some (JValue.str noInfoMsg)) ∧
    (rs = true → ∃ fs, noRetrievalResult qs ctx rs = JValue.obj fs ∧
      jLookup fs ("sources".toList) =
        some (JValue.obj (pyDictOfKeys qs (JValue.arr []))) ∧
      ∀ q ∈ qs, jLookup (pyDictOfKeys qs (JValue.arr [])) q =
        some (JValue.arr [])) := by
  have hret := retrieve_empty search qs top_k hs
  have hmain : ∀ (jp2 : PyStr → Option JValue) (genF2 : PyStr → GenOutcome),
      PHC_answer_batch tpl quickRef jp2 genF2 search qs top_k ctx rs =
        Except.ok (noRetrievalResult qs ctx rs) := by
    intro jp2 genF2
    unfold PHC_answer_batch
    rw [hret]
    rfl
  refine ⟨hmain jp genF,
    fun jp2 genF2 => (hmain jp genF).trans (hmain jp2 genF2).symm,
    noRetrieval_extract qs ctx rs hans,
    fun q hq => by rw [jLookup_pyDictOfKeys, if_pos hq],
    ?_⟩
  intro hrs
  subst hrs
  unfold noRetrievalResult
  rw [if_pos rfl]
  dsimp only
  by_cases hinc : includeTailoring ctx = true
  · rw [if_pos hinc]
    refine ⟨_, rfl, rfl, ?_⟩
    intro q hq
    rw [jLookup_pyDictOfKeys, if_pos hq]
  · rw [if_neg hinc]
    refine ⟨_, rfl, rfl, ?_⟩
    intro q hq
    rw [jLookup_pyDictOfKeys, if_pos hq]

/-- Witness for C7 on a concrete empty-search run. -/
theorem claim7_witness :
    PHC_answer_batch emptyTemplate noQuickRef wrongKeyParser respGen emptySearch
      [sampleQuestion] 5 [] true =
      Except.ok (noRetrievalResult [sampleQuestion] [] true) ∧
    (∀ (jp2 : PyStr → Option JValue) (genF2 : PyStr → GenOutcome),
      PHC_answer_batch emptyTemplate noQuickRef wrongKeyParser respGen emptySearch
        [sampleQuestion] 5 [] true =
        PHC_answer_batch emptyTemplate noQuickRef jp2 genF2 emptySearch
          [sampleQuestion] 5 [] true) ∧
    extractAnswersMap (noRetrievalResult [sampleQuestion] [] true) =
      JValue.obj (pyDictOfKeys [sampleQuestion] (JValue.str noInfoMsg)) ∧
    (∀ q ∈ [sampleQuestion],
      jLookup (pyDictOfKeys [sampleQuestion] (JValue.str noInfoMsg)) q =
        some (JValue.str noInfoMsg)) ∧
    (true = true → ∃ fs, noRetrievalResult [sampleQuestion] [] true = JValue.obj fs ∧
      jLookup fs ("sources".toList) =
        some (JValue.obj (pyDictOfKeys [sampleQuestion] (JValue.arr []))) ∧
      ∀ q ∈ [sampleQuestion],
        jLookup (pyDictOfKeys [sampleQuestion] (JValue.arr [])) q =
          some (JValue.arr [])) :=
  claim7_no_retrieval_short_circuit emptyTemplate noQuickRef wrongKeyParser respGen
    emptySearch [sampleQuestion] 5 [] true (fun _ _ => rfl) (by decide)

/-- Extracting the answers map from a dict whose `'answers'` lookup succeeds
yields the looked-up value. -/
theorem extract_of_lookup (fs2 : List (PyStr × JValue)) (a : JValue)
    (h : jLookup fs2 ("answers".toList) = some a) :
    extractAnswersMap (JValue.obj fs2) = a := by
  have hc : (jKeys fs2).contains ("answers".toList) = true :=
    List.elem_iff.mpr ((jLookup_isSome_iff fs2 ("answers".toList)).mp (by rw [h]; rfl))
  unfold extractAnswersMap
  dsimp only
  rw [if_pos hc]
  unfold pyGet
  rw [h]
  rfl

/-- Assembling a plain per-question answers dict (no `'answers'` wrapper):
the call succeeds and the extracted answers map is that same dict. -/
theorem phcAssemble_plain_extract (qc : List (PyStr × List Chunk))
    (qs : List PyStr) (rs : Bool) (m : PyStr)
    (hans : ("answers".toList) ∉ qs) :
    ∃ v, phcAssemble qc qs rs (JValue.obj (pyDictOfKeys qs (JValue.str m))) =
        Except.ok v ∧
      extractAnswersMap v = JValue.obj (pyDictOfKeys qs (JValue.str m)) := by
  have hextract : extractAnswersMap (JValue.obj (pyDictOfKeys qs (JValue.str m))) =
      JValue.obj (pyDictOfKeys qs (JValue.str m)) := by
    unfold extractAnswersMap
    dsimp only
    rw [pyDict_no_answers qs _ hans]
    simp
  have hsplit : splitEngineResult (JValue.obj (pyDictOfKeys qs (JValue.str m))) =
      (JValue.obj (pyDictOfKeys qs (JValue.str m)), JValue.str [], JValue.num 0,
        JValue.str []) := by
    unfold splitEngineResult
    dsimp only
    rw [pyDict_no_answers qs _ hans]
    simp
  unfold phcAssemble
  rw [hsplit]
  dsimp only
  cases rs with
  | false => exact ⟨_, rfl, hextract⟩
  | true =>
    refine ⟨_, rfl, ?_⟩
    apply extract_of_lookup
    repeat' split
    all_goals repeat rw [jLookup_jSet, if_neg (by decide)]
    all_goals rfl

/-- Assembling an engine result of the sponsor-context shape whose answers
entry is a constant per-question dict: the call succeeds and the extracted
answers map is exactly that dict. -/
theorem phcAssemble_errmap_extract (qc : List (PyStr × List Chunk))
    (qs : List PyStr) (rs : Bool) (m tl fe : PyStr)
    (hans : ("answers".toList) ∉ qs) :
    ∃ v, phcAssemble qc qs rs
        (JValue.obj
          [("answers".toList, JValue.obj (pyDictOfKeys qs (JValue.str m))),
           ("tailoring_explanation".toList, JValue.str tl),
           ("fit_score".toList, JValue.num 0),
           ("fit_explanation".toList, JValue.str fe)]) = Except.ok v ∧
      extractAnswersMap v = JValue.obj (pyDictOfKeys qs (JValue.str m)) := by
  have hextract : extractAnswersMap (JValue.obj (pyDictOfKeys qs (JValue.str m))) =
      JValue.obj (pyDictOfKeys qs (JValue.str m)) := by
    unfold extractAnswersMap
    dsimp only
    rw [pyDict_no_answers qs _ hans]
    simp
  have hsplit : splitEngineResult (JValue.obj
      [("answers".toList, JValue.obj (pyDictOfKeys qs (JValue.str m))),
       ("tailoring_explanation".toList, JValue.str tl),
       ("fit_score".toList, JValue.num 0),
       ("fit_explanation".toList, JValue.str fe)]) =
      (JValue.obj (pyDictOfKeys qs (JValue.str m)), JValue.str tl, JValue.num 0,
        JValue.str fe) := rfl
  unfold phcAssemble
  rw [hsplit]
  dsimp only
  by_cases hc : (rs || pyTruthy (JValue.str tl)) = true
  · rw [if_pos hc]
    refine ⟨_, rfl, ?_⟩
    apply extract_of_lookup
    repeat' split
    all_goals repeat rw [jLookup_jSet, if_neg (by decide)]
    all_goals rfl
  · rw [if_neg hc]
    exact ⟨_, rfl, hextract⟩

/-- C1 (amended): whenever the generation backend always raises, or the model
output is text on which the JSON parser always fails, the orchestrator
returns successfully and the extracted answers map has exactly the requested
questions as keys, each exactly once (stated for question lists not
containing the literal string `answers`, which the wrapper key would
shadow).  As stated the claim is falsified by its *parseable* case: a reply
that parses to an object with the wrong keys is passed through, so a
question can be missing from the key set — see the counterexample. -/
theorem claim1_answer_map_keys (tpl : PromptTemplate) (quickRef : PyStr → PyStr)
    (jp : PyStr → Option JValue) (genF : PyStr → GenOutcome)
    (search : PyStr → Nat → List Chunk) (qs : List PyStr) (top_k : Nat)
    (ctx : PyStr) (rs : Bool)
    (hans : ("answers".toList) ∉ qs)
    (hfail : (∃ e, ∀ p, genF p = GenOutcome.raiseExc e) ∨ (∀ s, jp s = none)) :
    ∃ v fs, PHC_answer_batch tpl quickRef jp genF search qs top_k ctx rs =
        Except.ok v ∧
      extractAnswersMap v = JValue.obj fs ∧
      (jKeys fs).Nodup ∧ (∀ q, q ∈ jKeys fs ↔ q ∈ qs) := by
  unfold PHC_answer_batch
  dsimp only
  by_cases hemp : (retrieve search qs top_k).all_chunks.isEmpty = true
  · rw [if_pos hemp]
    exact ⟨noRetrievalResult qs ctx rs, pyDictOfKeys qs (JValue.str noInfoMsg), rfl,
      noRetrieval_extract qs ctx rs hans,
      (jKeys_pyDictOfKeys qs _).1, (jKeys_pyDictOfKeys qs _).2⟩
  · rw [if_neg hemp]
    unfold QAEngine_answer_batch
    dsimp only
    generalize (QAEngine_prepare_prompt tpl quickRef qs
      (retrieve search qs top_k).all_chunks ctx).1 = P
    have hOr : (∃ e, genF P = GenOutcome.raiseExc e) ∨
        (∃ t, genF P = GenOutcome.ok t ∧ ∀ s, jp s = none) := by
      rcases hfail with ⟨e, hg⟩ | hjp
      · exact Or.inl ⟨e, hg P⟩
      · cases hgen : genF P with
        | raiseExc e => exact Or.inl ⟨e, rfl⟩
        | ok t => exact Or.inr ⟨t, rfl, hjp⟩
    obtain ⟨m, tl, fe, hpre, hres⟩ := qaExtract_failure_shape jp (genF P) qs ctx hOr
    rw [hres]
    by_cases hinc : includeTailoring ctx = true
    · rw [if_pos hinc]
      obtain ⟨v, hv, hex⟩ := phcAssemble_errmap_extract
        (retrieve search qs top_k).question_chunks qs rs m tl fe hans
      exact ⟨v, pyDictOfKeys qs (JValue.str m), hv, hex,
        (jKeys_pyDictOfKeys qs _).1, (jKeys_pyDictOfKeys qs _).2⟩
    · rw [if_neg hinc]
      obtain ⟨v, hv, hex⟩ := phcAssemble_plain_extract
        (retrieve search qs top_k).question_chunks qs rs m hans
      exact ⟨v, pyDictOfKeys qs (JValue.str m), hv, hex,
        (jKeys_pyDictOfKeys qs _).1, (jKeys_pyDictOfKeys qs _).2⟩

/-- Witness for C1 (amended) on a concrete run whose parser fails on every
string. -/
theorem claim1_witness :
    ∃ v fs, PHC_answer_batch emptyTemplate noQuickRef (fun _ => none) respGen
        oneChunkSearch [sampleQuestion] 15 [] false = Except.ok v ∧
      extractAnswersMap v = JValue.obj fs ∧
      (jKeys fs).Nodup ∧ (∀ q, q ∈ jKeys fs ↔ q ∈ [sampleQuestion]) :=
  claim1_answer_map_keys emptyTemplate noQuickRef (fun _ => none) respGen
    oneChunkSearch [sampleQuestion] 15 [] false (by decide)
    (Or.inr (fun _ => rfl))

/-- Counterexample to C1 as stated: the backend neither fails nor returns
unparseable output — its reply parses to an object whose single key is not
the requested question.  The orchestrator returns that object as the answers
map unchanged, so the requested question is missing from the key set. -/
theorem claim1_counterexample :
    PHC_answer_batch emptyTemplate noQuickRef wrongKeyParser respGen oneChunkSearch
      [sampleQuestion] 15 [] false =
      Except.ok (JValue.obj [("other".toList, JValue.str ("x".toList))]) ∧
    sampleQuestion ∉ jKeys [("other".toList, JValue.str ("x".toList))] :=
  ⟨rfl, by decide⟩

end GrantMate
